import Mathlib

/-!
# line-bot-api: a verification development

A shallow embedding of `line.go` (package `line`): the message schemas, the
client `API` with `New`, `DecodeMessage`, `SetProxy` and `SendMessage`, and the
parts of Go's standard library that these four functions call
(`encoding/json`, `net/url`, `net/http`), modelled as of Go 1.22 on a 64-bit
platform.

Conventions of the embedding:
* a Go `string` or `[]byte` is a Lean `String` (valid UTF-8 only), `len` is
  `String.utf8ByteSize`;
* a Go `int` is an `Int`, the decoder checks the signed 64-bit range;
* a Go slice is an `Option (List _)`, `none` being the nil slice;
* a pointer result paired with an `error` is an `Except`;
* the network is a parameter: the function `Network` gives the result of
  `(*http.Client).Do` for a client and a request;
* what the logger writes is not modelled, and the struct `Response` of
  `line.go`, which no function uses, is left out.
-/

namespace Line

/-! ## JSON values -/

/-- A JSON number literal: sign, integer part, the digits after the point
(empty when the literal has no fraction) and the exponent when one is written. -/
structure Number where
  neg : Bool
  int : Nat
  frac : List Nat
  exp : Option Int
deriving DecidableEq, Repr

/-- A parsed JSON value; the members of an object keep the order of the text. -/
inductive JSON where
  | null
  | bool (b : Bool)
  | num (n : Number)
  | str (s : String)
  | arr (elems : List JSON)
  | obj (members : List (String × JSON))
deriving Repr

/-- The number literal of an integer. -/
def Number.ofInt (i : Int) : Number :=
  { neg := decide (i < 0), int := i.natAbs, frac := [], exp := none }

/-- The literal is an integer literal: no fraction and no exponent. -/
def Number.isIntLit (n : Number) : Bool :=
  n.frac.isEmpty && n.exp.isNone

/-- The integer an integer literal denotes. -/
def Number.toInt (n : Number) : Int :=
  if n.neg then -(n.int : Int) else (n.int : Int)

/-! ## The JSON scanner (`encoding/json`, `checkValid` and `unquote`) -/

/-- The scanner's `isSpace`: space, tab, carriage return, line feed. -/
def isSpace (c : Char) : Bool :=
  c.toNat == 0x20 || c.toNat == 0x09 || c.toNat == 0x0d || c.toNat == 0x0a

/-- The text without its leading white space. -/
def skipSpace : List Char → List Char
  | [] => []
  | c :: cs => if isSpace c then skipSpace cs else c :: cs

/-- A decimal digit. -/
def isDigit (c : Char) : Bool :=
  decide (0x30 ≤ c.toNat) && decide (c.toNat ≤ 0x39)

/-- The value of a hexadecimal digit, of either case. -/
def hexVal (c : Char) : Option Nat :=
  if 0x30 ≤ c.toNat ∧ c.toNat ≤ 0x39 then some (c.toNat - 0x30)
  else if 0x61 ≤ c.toNat ∧ c.toNat ≤ 0x66 then some (c.toNat - 0x61 + 10)
  else if 0x41 ≤ c.toNat ∧ c.toNat ≤ 0x46 then some (c.toNat - 0x41 + 10)
  else none

/-- The function `getu4` on the four characters after a backslash and `u`. -/
def getu4 (a b c d : Char) : Option Nat :=
  match hexVal a, hexVal b, hexVal c, hexVal d with
  | some x, some y, some z, some w => some (((x * 16 + y) * 16 + z) * 16 + w)
  | _, _, _, _ => none

/-- The replacement character U+FFFD. -/
def replacementChar : Char := Char.ofNat 0xfffd

/-- The function `utf16.DecodeRune`: the code point of a surrogate pair, or the
replacement character when the two halves are not a valid pair. -/
def decodeSurrogates (r1 r2 : Nat) : Char :=
  if 0xd800 ≤ r1 ∧ r1 < 0xdc00 ∧ 0xdc00 ≤ r2 ∧ r2 < 0xe000 then
    Char.ofNat ((r1 - 0xd800) * 0x400 + (r2 - 0xdc00) + 0x10000)
  else replacementChar

/-- The character a one-letter escape stands for. -/
def unescapeLetter (e : Char) : Option Char :=
  if e.toNat = 0x22 then some (Char.ofNat 0x22)
  else if e.toNat = 0x5c then some (Char.ofNat 0x5c)
  else if e.toNat = 0x2f then some (Char.ofNat 0x2f)
  else if e.toNat = 0x62 then some (Char.ofNat 0x08)
  else if e.toNat = 0x66 then some (Char.ofNat 0x0c)
  else if e.toNat = 0x6e then some (Char.ofNat 0x0a)
  else if e.toNat = 0x72 then some (Char.ofNat 0x0d)
  else if e.toNat = 0x74 then some (Char.ofNat 0x09)
  else none

/-- Scans a string literal after its opening quote and unquotes it: the decoded
characters and the text after the closing quote.  A character below U+0020 and
an unknown escape are errors; a lone surrogate escape decodes to U+FFFD.  Every
step consumes a character, hence the fuel. -/
def scanStringAux : Nat → List Char → Option (List Char × List Char)
  | 0, _ => none
  | _ + 1, [] => none
  | fuel + 1, c :: rest =>
    if c.toNat = 0x22 then some ([], rest)
    else if c.toNat = 0x5c then
      match rest with
      | [] => none
      | e :: rest1 =>
        if e.toNat = 0x75 then
          match rest1 with
          | h1 :: h2 :: h3 :: h4 :: rest2 =>
            match getu4 h1 h2 h3 h4 with
            | none => none
            | some rr =>
              if 0xd800 ≤ rr ∧ rr < 0xe000 then
                match rest2 with
                | b :: u :: l1 :: l2 :: l3 :: l4 :: rest3 =>
                  match (if b.toNat = 0x5c ∧ u.toNat = 0x75 then getu4 l1 l2 l3 l4 else none) with
                  | some rr1 =>
                    if decodeSurrogates rr rr1 = replacementChar then
                      (scanStringAux fuel rest2).map (fun r => (replacementChar :: r.1, r.2))
                    else
                      (scanStringAux fuel rest3).map (fun r => (decodeSurrogates rr rr1 :: r.1, r.2))
                  | none => (scanStringAux fuel rest2).map (fun r => (replacementChar :: r.1, r.2))
                | _ => (scanStringAux fuel rest2).map (fun r => (replacementChar :: r.1, r.2))
              else (scanStringAux fuel rest2).map (fun r => (Char.ofNat rr :: r.1, r.2))
          | _ => none
        else
          match unescapeLetter e with
          | some ch => (scanStringAux fuel rest1).map (fun r => (ch :: r.1, r.2))
          | none => none
    else if c.toNat < 0x20 then none
    else (scanStringAux fuel rest).map (fun r => (c :: r.1, r.2))

/-- Scans a string literal after its opening quote. -/
def scanString (cs : List Char) : Option (List Char × List Char) :=
  scanStringAux cs.length cs

/-- The leading decimal digits of a text and what follows them. -/
def takeDigits : List Char → List Nat × List Char
  | [] => ([], [])
  | c :: cs =>
    if isDigit c then ((c.toNat - 0x30) :: (takeDigits cs).1, (takeDigits cs).2)
    else ([], c :: cs)

/-- The number a sequence of decimal digits denotes. -/
def digitsVal (ds : List Nat) : Nat :=
  ds.foldl (fun a d => 10 * a + d) 0

/-- The exponent part of a number literal, when the text starts with one. -/
def scanExp (cs : List Char) : Option (Option Int × List Char) :=
  match cs with
  | e :: rest =>
    if e.toNat = 0x65 ∨ e.toNat = 0x45 then
      match rest with
      | s :: rest1 =>
        if s.toNat = 0x2b then
          match takeDigits rest1 with
          | ([], _) => none
          | (ds, r) => some (some (digitsVal ds : Int), r)
        else if s.toNat = 0x2d then
          match takeDigits rest1 with
          | ([], _) => none
          | (ds, r) => some (some (-(digitsVal ds : Int)), r)
        else
          match takeDigits rest with
          | ([], _) => none
          | (ds, r) => some (some (digitsVal ds : Int), r)
      | [] => none
    else some (none, cs)
  | [] => some (none, cs)

/-- The fraction part of a number literal, when the text starts with one. -/
def scanFrac (cs : List Char) : Option (List Nat × List Char) :=
  match cs with
  | p :: rest =>
    if p.toNat = 0x2e then
      match takeDigits rest with
      | ([], _) => none
      | (ds, r) => some (ds, r)
    else some ([], cs)
  | [] => some ([], cs)

/-- Scans the digits of a number literal (after the optional minus sign). -/
def scanUnsigned (neg : Bool) (cs : List Char) : Option (Number × List Char) :=
  match takeDigits cs with
  | ([], _) => none
  | (d :: ds, rest) =>
    if d = 0 ∧ ds ≠ [] then none
    else
      match scanFrac rest with
      | none => none
      | some (frac, rest1) =>
        match scanExp rest1 with
        | none => none
        | some (exp, rest2) =>
          some ({ neg := neg, int := digitsVal (d :: ds), frac := frac, exp := exp }, rest2)

/-- Scans a number literal. -/
def scanNumber (cs : List Char) : Option (Number × List Char) :=
  match cs with
  | c :: rest => if c.toNat = 0x2d then scanUnsigned true rest else scanUnsigned false cs
  | [] => none

/-- Strips the characters of a keyword from the front of a text. -/
def stripWord : List Char → List Char → Option (List Char)
  | [], cs => some cs
  | _ :: _, [] => none
  | w :: ws, c :: cs => if w = c then stripWord ws cs else none

/-- The scanner's limit on the nesting of arrays and objects. -/
def maxNestingDepth : Nat := 10000

mutual
/-- Scans one JSON value, leading white space included.  Each array or object
opened counts towards the nesting depth. -/
def scanValue : Nat → Nat → List Char → Option (JSON × List Char)
  | 0, _, _ => none
  | fuel + 1, depth, cs =>
    match skipSpace cs with
    | [] => none
    | c :: rest =>
      if c.toNat = 0x7b then
        if maxNestingDepth < depth + 1 then none
        else
          match skipSpace rest with
          | [] => none
          | c1 :: rest1 =>
            if c1.toNat = 0x7d then some (JSON.obj [], rest1)
            else (scanMembers fuel (depth + 1) (c1 :: rest1)).map (fun r => (JSON.obj r.1, r.2))
      else if c.toNat = 0x5b then
        if maxNestingDepth < depth + 1 then none
        else
          match skipSpace rest with
          | [] => none
          | c1 :: rest1 =>
            if c1.toNat = 0x5d then some (JSON.arr [], rest1)
            else (scanElems fuel (depth + 1) (c1 :: rest1)).map (fun r => (JSON.arr r.1, r.2))
      else if c.toNat = 0x22 then
        (scanString rest).map (fun r => (JSON.str (String.mk r.1), r.2))
      else if c.toNat = 0x74 then
        (stripWord "rue".data rest).map (fun r => (JSON.bool true, r))
      else if c.toNat = 0x66 then
        (stripWord "alse".data rest).map (fun r => (JSON.bool false, r))
      else if c.toNat = 0x6e then
        (stripWord "ull".data rest).map (fun r => (JSON.null, r))
      else
        (scanNumber (c :: rest)).map (fun r => (JSON.num r.1, r.2))
/-- Scans the members of a non-empty object up to the closing brace. -/
def scanMembers : Nat → Nat → List Char → Option (List (String × JSON) × List Char)
  | 0, _, _ => none
  | fuel + 1, depth, cs =>
    match skipSpace cs with
    | [] => none
    | q :: rest =>
      if q.toNat = 0x22 then
        match scanString rest with
        | none => none
        | some (key, rest1) =>
          match skipSpace rest1 with
          | [] => none
          | colon :: rest2 =>
            if colon.toNat = 0x3a then
              match scanValue fuel depth rest2 with
              | none => none
              | some (v, rest3) =>
                match skipSpace rest3 with
                | [] => none
                | d :: rest4 =>
                  if d.toNat = 0x7d then some ([(String.mk key, v)], rest4)
                  else if d.toNat = 0x2c then
                    (scanMembers fuel depth rest4).map
                      (fun r => ((String.mk key, v) :: r.1, r.2))
                  else none
            else none
      else none
/-- Scans the elements of a non-empty array up to the closing bracket. -/
def scanElems : Nat → Nat → List Char → Option (List JSON × List Char)
  | 0, _, _ => none
  | fuel + 1, depth, cs =>
    match scanValue fuel depth cs with
    | none => none
    | some (v, rest) =>
      match skipSpace rest with
      | [] => none
      | d :: rest1 =>
        if d.toNat = 0x5d then some ([v], rest1)
        else if d.toNat = 0x2c then
          (scanElems fuel depth rest1).map (fun r => (v :: r.1, r.2))
        else none
end

/-- Parses a whole text as one JSON value: white space, a value, white space.
Every step of the scanner consumes a character, hence the fuel. -/
def parseJSON (body : String) : Option JSON :=
  match scanValue (body.length + 1) 0 body.data with
  | none => none
  | some (v, rest) => if (skipSpace rest).isEmpty then some v else none

/-! ## The JSON encoder (`encoding/json`, `Marshal`) -/

/-- The lower-case hexadecimal digit of a value below 16. -/
def hexDigit (n : Nat) : Char :=
  if n < 10 then Char.ofNat (0x30 + n) else Char.ofNat (0x61 + (n - 10))

/-- The table `htmlSafeSet`: the ASCII characters `Marshal` writes unescaped,
all from U+0020 on except the double quote, `&`, `<`, `>` and the backslash. -/
def htmlSafe (n : Nat) : Bool :=
  decide (0x20 ≤ n) && !(n == 0x22 || n == 0x26 || n == 0x3c || n == 0x3e || n == 0x5c)

/-- What `appendString` (with `escapeHTML` set, as `Marshal` does) writes for
one character of a string. -/
def escapeChar (c : Char) : List Char :=
  if c.toNat < 0x80 then
    if htmlSafe c.toNat then [c]
    else if c.toNat = 0x5c ∨ c.toNat = 0x22 then [Char.ofNat 0x5c, c]
    else if c.toNat = 0x08 then [Char.ofNat 0x5c, 'b']
    else if c.toNat = 0x0c then [Char.ofNat 0x5c, 'f']
    else if c.toNat = 0x0a then [Char.ofNat 0x5c, 'n']
    else if c.toNat = 0x0d then [Char.ofNat 0x5c, 'r']
    else if c.toNat = 0x09 then [Char.ofNat 0x5c, 't']
    else [Char.ofNat 0x5c, 'u', '0', '0', hexDigit (c.toNat / 16), hexDigit (c.toNat % 16)]
  else if c.toNat = 0x2028 ∨ c.toNat = 0x2029 then
    [Char.ofNat 0x5c, 'u', '2', '0', '2', hexDigit (c.toNat % 16)]
  else [c]

/-- The JSON string literal `Marshal` writes for a string. -/
def encodeString (s : String) : String :=
  String.mk (Char.ofNat 0x22 :: (s.data.flatMap escapeChar ++ [Char.ofNat 0x22]))

/-- The decimal digits of a fraction part. -/
def renderDigits (ds : List Nat) : String :=
  String.mk (ds.map (fun d => Char.ofNat (0x30 + d)))

/-- The text of a number literal. -/
def renderNumber (n : Number) : String :=
  (if n.neg then "-" else "") ++ toString n.int
    ++ (if n.frac.isEmpty then "" else "." ++ renderDigits n.frac)
    ++ (match n.exp with
        | none => ""
        | some e => "e" ++ toString e)

mutual
/-- The compact text of a JSON value, as `Marshal` writes it: no white space,
members in order. -/
def render : JSON → String
  | .null => "null"
  | .bool b => if b then "true" else "false"
  | .num n => renderNumber n
  | .str s => encodeString s
  | .arr xs => "[" ++ renderElems xs ++ "]"
  | .obj kvs => "\x7b" ++ renderMembers kvs ++ "\x7d"
def renderElems : List JSON → String
  | [] => ""
  | [x] => render x
  | x :: y :: xs => render x ++ "," ++ renderElems (y :: xs)
def renderMembers : List (String × JSON) → String
  | [] => ""
  | [(k, v)] => encodeString k ++ ":" ++ render v
  | (k, v) :: kv :: kvs => encodeString k ++ ":" ++ render v ++ "," ++ renderMembers (kv :: kvs)
end

/-! ## The message schemas of `line.go` -/

/-- ContentMetadata is a metadata of content. -/
structure ContentMetadata where
  STKPKGID : String
  STKID : String
  STKVER : String
  STKTXT : String
  Mid : String
  DisplayName : String
deriving DecidableEq, Repr

/-- Location is a location related data. -/
structure Location where
  Title : String
  Address : String
  Latitude : Int
  Longitude : Int
deriving DecidableEq, Repr

/-- Content is a content of a message. -/
structure Content where
  ID : String
  ContentType : Int
  From : String
  CreatedTime : Int
  To : Option (List String)
  ToType : Int
  ConentMetadata : ContentMetadata
  Text : String
  Location : Location
deriving DecidableEq, Repr

/-- Result is a message or a operation. -/
structure Result where
  ID : String
  From : String
  FromChannel : Int
  To : Option (List String)
  ToChannel : Int
  EventType : String
  Content : Content
deriving DecidableEq, Repr

/-- ReceivedMessage is a body of callback sent by LINE. -/
structure ReceivedMessage where
  Results : Option (List Result)
deriving DecidableEq, Repr

/-- SendingMessage is a body for Posting API. -/
structure SendingMessage where
  To : Option (List String)
  ToChannel : Int
  EventType : String
  Content : Content
deriving DecidableEq, Repr

/-- The zero value of `ContentMetadata`. -/
def ContentMetadata.zero : ContentMetadata :=
  { STKPKGID := "", STKID := "", STKVER := "", STKTXT := "", Mid := "", DisplayName := "" }

/-- The zero value of `Location`. -/
def Location.zero : Location :=
  { Title := "", Address := "", Latitude := 0, Longitude := 0 }

/-- The zero value of `Content`. -/
def Content.zero : Content :=
  { ID := "", ContentType := 0, From := "", CreatedTime := 0, To := none, ToType := 0,
    ConentMetadata := ContentMetadata.zero, Text := "", Location := Location.zero }

/-- The zero value of `Result`. -/
def Result.zero : Result :=
  { ID := "", From := "", FromChannel := 0, To := none, ToChannel := 0, EventType := "",
    Content := Content.zero }

/-- The zero value of `ReceivedMessage`. -/
def ReceivedMessage.zero : ReceivedMessage :=
  { Results := none }

/-! ContentType constants (`1 + iota`). -/

def ContentTypeText : Int := 1
def ContentTypeImage : Int := 2
def ContentTypeVideo : Int := 3
def ContentTypeAudio : Int := 4
def ContentTypeUndefined5 : Int := 5
def ContentTypeUndefined6 : Int := 6
def ContentTypeLocation : Int := 7
def ContentTypeSticker : Int := 8
def ContentTypeUndefined9 : Int := 9
def ContentTypeContact : Int := 10

/-! The constants of the endpoint. -/

def baseEndPoint : String := "https://trialbot-api.line.me"
def defaultToChannel : Int := 1383378250
def defaultEventType : String := "138311608800106203"

/-! ## Encoding the schemas

`Marshal` writes a struct as an object with one member per field, in the order
of the declaration and under the name of the `json` tag; no tag of `line.go`
carries `omitempty`, so every field is written.  A nil slice is written `null`. -/

/-- A `[]string` as `Marshal` writes it. -/
def stringsToJSON : Option (List String) → JSON
  | none => JSON.null
  | some l => JSON.arr (l.map JSON.str)

/-- An `int` as `Marshal` writes it. -/
def intToJSON (i : Int) : JSON := JSON.num (Number.ofInt i)

/-- A `ContentMetadata` as `Marshal` writes it. -/
def ContentMetadata.toJSON (m : ContentMetadata) : JSON :=
  JSON.obj [("STKPKGID", JSON.str m.STKPKGID), ("STKID", JSON.str m.STKID),
    ("STKVER", JSON.str m.STKVER), ("STKTXT", JSON.str m.STKTXT),
    ("mid", JSON.str m.Mid), ("displayName", JSON.str m.DisplayName)]

/-- A `Location` as `Marshal` writes it; the longitude goes under the tag
`Longitude`. -/
def Location.toJSON (l : Location) : JSON :=
  JSON.obj [("title", JSON.str l.Title), ("address", JSON.str l.Address),
    ("latitude", intToJSON l.Latitude), ("Longitude", intToJSON l.Longitude)]

/-- A `Content` as `Marshal` writes it. -/
def Content.toJSON (c : Content) : JSON :=
  JSON.obj [("id", JSON.str c.ID), ("contentType", intToJSON c.ContentType),
    ("from", JSON.str c.From), ("createdTime", intToJSON c.CreatedTime),
    ("to", stringsToJSON c.To), ("toType", intToJSON c.ToType),
    ("contentMetadata", c.ConentMetadata.toJSON), ("text", JSON.str c.Text),
    ("location", c.Location.toJSON)]

/-- A `SendingMessage` as `Marshal` writes it. -/
def SendingMessage.toJSON (m : SendingMessage) : JSON :=
  JSON.obj [("to", stringsToJSON m.To), ("toChannel", intToJSON m.ToChannel),
    ("eventType", JSON.str m.EventType), ("content", m.Content.toJSON)]

/-! ## Decoding the schemas (`encoding/json`, `Unmarshal`) -/

/-- The two ways `Unmarshal` fails: the text is not JSON (`SyntaxError`), or a
value does not fit the Go type it is decoded into (`UnmarshalTypeError`). -/
inductive JSONError where
  | invalidJSON
  | typeMismatch
deriving DecidableEq, Repr

/-- The smallest rune of a case-folding orbit, as `foldRune` computes it, for
the orbits that have an ASCII member: the letters, the Kelvin sign U+212A
(with `k`) and the long s U+017F (with `s`).  Every field name of `line.go` is
ASCII, so a rune of another orbit never matches one and is left as it is. -/
def foldRune (c : Char) : Char :=
  if 0x61 ≤ c.toNat ∧ c.toNat ≤ 0x7a then Char.ofNat (c.toNat - 0x20)
  else if c.toNat = 0x212a then Char.ofNat 0x4b
  else if c.toNat = 0x17f then Char.ofNat 0x53
  else c

/-- The function `foldName`: a key with every rune folded. -/
def foldName (s : String) : List Char :=
  s.data.map foldRune

/-- The index of the first name that satisfies a test. -/
def fieldIndex (p : String → Bool) : List String → Option Nat
  | [] => none
  | n :: ns => if p n then some 0 else (fieldIndex p ns).map (fun i => i + 1)

/-- The field an object key is decoded into: the field of that very name, or
else the first one whose name equals the key under case folding. -/
def findField (names : List String) (key : String) : Option Nat :=
  match fieldIndex (fun n => n == key) names with
  | some i => some i
  | none => fieldIndex (fun n => foldName n == foldName key) names

/-- Decodes the members of an object into a struct, in the order of the text:
a key that names no field is skipped, the value of another key is decoded into
the field as it stands. -/
def decodeMembers {S : Type} (names : List String) (set : Nat → S → JSON → Except JSONError S) :
    S → List (String × JSON) → Except JSONError S
  | s, [] => Except.ok s
  | s, (k, v) :: kvs =>
    match findField names k with
    | none => decodeMembers names set s kvs
    | some i =>
      match set i s v with
      | Except.error e => Except.error e
      | Except.ok s1 => decodeMembers names set s1 kvs

/-- Decodes a value into a struct: `null` leaves it as it is, an object is
decoded member by member, anything else does not fit. -/
def decodeStruct {S : Type} (names : List String) (set : Nat → S → JSON → Except JSONError S)
    (s : S) : JSON → Except JSONError S
  | JSON.null => Except.ok s
  | JSON.obj kvs => decodeMembers names set s kvs
  | _ => Except.error JSONError.typeMismatch

/-- Decodes a value into a `string`: `null` leaves it as it is. -/
def decodeString (old : String) : JSON → Except JSONError String
  | JSON.null => Except.ok old
  | JSON.str s => Except.ok s
  | _ => Except.error JSONError.typeMismatch

/-- The bounds of a 64-bit `int`. -/
def minInt : Int := -(2 ^ 63)
/-- The largest 64-bit `int`. -/
def maxInt : Int := 2 ^ 63 - 1

/-- Decodes a value into an `int`: the literal has to pass `strconv.ParseInt`
(an integer literal within 64 bits); `null` leaves the field as it is. -/
def decodeInt (old : Int) : JSON → Except JSONError Int
  | JSON.null => Except.ok old
  | JSON.num n =>
    if n.isIntLit = true ∧ minInt ≤ n.toInt ∧ n.toInt ≤ maxInt then Except.ok n.toInt
    else Except.error JSONError.typeMismatch
  | _ => Except.error JSONError.typeMismatch

/-- Decodes the elements of an array one by one, the i-th into the i-th element
the slice has so far, or into a zero element past its length (spare capacity
of the old slice is not modelled). -/
def decodeElems {A : Type} (dec : A → JSON → Except JSONError A) (zero : A) :
    List A → List JSON → Except JSONError (List A)
  | _, [] => Except.ok []
  | old, j :: js =>
    match dec (old.headD zero) j with
    | Except.error e => Except.error e
    | Except.ok x =>
      match decodeElems dec zero old.tail js with
      | Except.error e => Except.error e
      | Except.ok xs => Except.ok (x :: xs)

/-- Decodes a value into a slice: `null` makes it nil, an array gives a slice
of the length of the array (empty and not nil for `[]`). -/
def decodeSlice {A : Type} (dec : A → JSON → Except JSONError A) (zero : A)
    (old : Option (List A)) : JSON → Except JSONError (Option (List A))
  | JSON.null => Except.ok none
  | JSON.arr js => (decodeElems dec zero (old.getD []) js).map some
  | _ => Except.error JSONError.typeMismatch

/-- Decodes a value into a `[]string`. -/
def decodeStrings (old : Option (List String)) (j : JSON) :
    Except JSONError (Option (List String)) :=
  decodeSlice decodeString "" old j

/-- The `json` tags of `ContentMetadata`, in the order of its fields. -/
def ContentMetadata.names : List String :=
  ["STKPKGID", "STKID", "STKVER", "STKTXT", "mid", "displayName"]

/-- Decodes a value into the field of `ContentMetadata` with the given index. -/
def ContentMetadata.set : Nat → ContentMetadata → JSON → Except JSONError ContentMetadata
  | 0, m, j => (decodeString m.STKPKGID j).map (fun x => { m with STKPKGID := x })
  | 1, m, j => (decodeString m.STKID j).map (fun x => { m with STKID := x })
  | 2, m, j => (decodeString m.STKVER j).map (fun x => { m with STKVER := x })
  | 3, m, j => (decodeString m.STKTXT j).map (fun x => { m with STKTXT := x })
  | 4, m, j => (decodeString m.Mid j).map (fun x => { m with Mid := x })
  | 5, m, j => (decodeString m.DisplayName j).map (fun x => { m with DisplayName := x })
  | _, m, _ => Except.ok m

/-- Decodes a value into a `ContentMetadata`. -/
def ContentMetadata.decode (m : ContentMetadata) (j : JSON) : Except JSONError ContentMetadata :=
  decodeStruct ContentMetadata.names ContentMetadata.set m j

/-- The `json` tags of `Location`, in the order of its fields (the longitude has the tag `Longitude`). -/
def Location.names : List String :=
  ["title", "address", "latitude", "Longitude"]

/-- Decodes a value into the field of `Location` with the given index. -/
def Location.set : Nat → Location → JSON → Except JSONError Location
  | 0, l, j => (decodeString l.Title j).map (fun x => { l with Title := x })
  | 1, l, j => (decodeString l.Address j).map (fun x => { l with Address := x })
  | 2, l, j => (decodeInt l.Latitude j).map (fun x => { l with Latitude := x })
  | 3, l, j => (decodeInt l.Longitude j).map (fun x => { l with Longitude := x })
  | _, l, _ => Except.ok l

/-- Decodes a value into a `Location`. -/
def Location.decode (l : Location) (j : JSON) : Except JSONError Location :=
  decodeStruct Location.names Location.set l j

/-- The `json` tags of `Content`, in the order of its fields. -/
def Content.names : List String :=
  ["id", "contentType", "from", "createdTime", "to", "toType", "contentMetadata", "text",
    "location"]

/-- Decodes a value into the field of `Content` with the given index. -/
def Content.set : Nat → Content → JSON → Except JSONError Content
  | 0, c, j => (decodeString c.ID j).map (fun x => { c with ID := x })
  | 1, c, j => (decodeInt c.ContentType j).map (fun x => { c with ContentType := x })
  | 2, c, j => (decodeString c.From j).map (fun x => { c with From := x })
  | 3, c, j => (decodeInt c.CreatedTime j).map (fun x => { c with CreatedTime := x })
  | 4, c, j => (decodeStrings c.To j).map (fun x => { c with To := x })
  | 5, c, j => (decodeInt c.ToType j).map (fun x => { c with ToType := x })
  | 6, c, j => (c.ConentMetadata.decode j).map (fun x => { c with ConentMetadata := x })
  | 7, c, j => (decodeString c.Text j).map (fun x => { c with Text := x })
  | 8, c, j => (c.Location.decode j).map (fun x => { c with Location := x })
  | _, c, _ => Except.ok c

/-- Decodes a value into a `Content`. -/
def Content.decode (c : Content) (j : JSON) : Except JSONError Content :=
  decodeStruct Content.names Content.set c j

/-- The `json` tags of `Result`, in the order of its fields. -/
def Result.names : List String :=
  ["id", "from", "fromChannel", "to", "toChannel", "eventType", "content"]

/-- Decodes a value into the field of `Result` with the given index. -/
def Result.set : Nat → Result → JSON → Except JSONError Result
  | 0, r, j => (decodeString r.ID j).map (fun x => { r with ID := x })
  | 1, r, j => (decodeString r.From j).map (fun x => { r with From := x })
  | 2, r, j => (decodeInt r.FromChannel j).map (fun x => { r with FromChannel := x })
  | 3, r, j => (decodeStrings r.To j).map (fun x => { r with To := x })
  | 4, r, j => (decodeInt r.ToChannel j).map (fun x => { r with ToChannel := x })
  | 5, r, j => (decodeString r.EventType j).map (fun x => { r with EventType := x })
  | 6, r, j => (r.Content.decode j).map (fun x => { r with Content := x })
  | _, r, _ => Except.ok r

/-- Decodes a value into a `Result`. -/
def Result.decode (r : Result) (j : JSON) : Except JSONError Result :=
  decodeStruct Result.names Result.set r j

/-- The `json` tags of `ReceivedMessage`, in the order of its fields. -/
def ReceivedMessage.names : List String :=
  ["result"]

/-- Decodes a value into the field of `ReceivedMessage` with the given index. -/
def ReceivedMessage.set : Nat → ReceivedMessage → JSON → Except JSONError ReceivedMessage
  | 0, m, j => (decodeSlice Result.decode Result.zero m.Results j).map (fun x => { m with Results := x })
  | _, m, _ => Except.ok m

/-- Decodes a value into a `ReceivedMessage`. -/
def ReceivedMessage.decode (m : ReceivedMessage) (j : JSON) : Except JSONError ReceivedMessage :=
  decodeStruct ReceivedMessage.names ReceivedMessage.set m j

/-- The call `json.Unmarshal(b, &m)` for a zero `ReceivedMessage`: the text is
checked to be JSON first, then decoded. -/
def unmarshalReceivedMessage (b : String) : Except JSONError ReceivedMessage :=
  match parseJSON b with
  | none => Except.error JSONError.invalidJSON
  | some j => ReceivedMessage.zero.decode j

/-- Whether `strconv.ParseFloat` reports a number literal out of range for a
`float64`: its magnitude is at least `2^1024 - 2^970`, the point from which
rounding to nearest gives an infinity. -/
def Number.overflowsFloat64 (n : Number) : Bool :=
  let mant : Nat := n.int * 10 ^ n.frac.length + digitsVal n.frac
  let e : Int := n.exp.getD 0 - (n.frac.length : Int)
  if 0 ≤ e then decide (2 ^ 1024 - 2 ^ 970 ≤ mant * 10 ^ e.toNat)
  else decide ((2 ^ 1024 - 2 ^ 970) * 10 ^ (-e).toNat ≤ mant)

mutual
/-- A value decodes into an `interface{}`: every number in it, turned into a
`float64` by `strconv.ParseFloat`, is in range. -/
def fitsInterface : JSON → Bool
  | .null => true
  | .bool _ => true
  | .num n => !n.overflowsFloat64
  | .str _ => true
  | .arr xs => fitsInterfaceElems xs
  | .obj kvs => fitsInterfaceMembers kvs
def fitsInterfaceElems : List JSON → Bool
  | [] => true
  | x :: xs => fitsInterface x && fitsInterfaceElems xs
def fitsInterfaceMembers : List (String × JSON) → Bool
  | [] => true
  | (_, v) :: kvs => fitsInterface v && fitsInterfaceMembers kvs
end

/-- The call `json.Unmarshal(body, &result)` for a nil `map[string]interface{}`:
the text has to be JSON, its value `null` (the map stays nil) or an object whose
values all decode into an `interface{}`.  The mapping is given as the members of
the object. -/
def unmarshalMap (body : String) : Except JSONError (List (String × JSON)) :=
  match parseJSON body with
  | none => Except.error JSONError.invalidJSON
  | some JSON.null => Except.ok []
  | some (JSON.obj kvs) =>
    if fitsInterfaceMembers kvs then Except.ok kvs else Except.error JSONError.typeMismatch
  | some _ => Except.error JSONError.typeMismatch

/-! ## URLs (`net/url`, `Parse`)

The parser works on the bytes of the text; a component of a URL is a list of
bytes, as unescaping a percent escape may give any byte. -/

/-- The UTF-8 encoding of a character. -/
def utf8Bytes (c : Char) : List Nat :=
  if c.toNat < 0x80 then [c.toNat]
  else if c.toNat < 0x800 then [0xc0 + c.toNat / 64, 0x80 + c.toNat % 64]
  else if c.toNat < 0x10000 then
    [0xe0 + c.toNat / 4096, 0x80 + c.toNat / 64 % 64, 0x80 + c.toNat % 64]
  else
    [0xf0 + c.toNat / 262144, 0x80 + c.toNat / 4096 % 64, 0x80 + c.toNat / 64 % 64,
      0x80 + c.toNat % 64]

/-- The bytes of a string. -/
def toBytes (s : String) : List Nat :=
  s.data.flatMap utf8Bytes

/-- The function `strings.Cut` for a separator of one byte: the text before the
first separator and the text after it, or the whole text and nothing. -/
def cutByte (sep : Nat) : List Nat → List Nat × List Nat
  | [] => ([], [])
  | c :: cs => if c = sep then ([], cs) else (c :: (cutByte sep cs).1, (cutByte sep cs).2)

/-- The text from the last occurrence of a byte on, that byte included, when
the byte occurs. -/
def fromLastByte (sep : Nat) : List Nat → Option (List Nat)
  | [] => none
  | c :: cs =>
    match fromLastByte sep cs with
    | some r => some r
    | none => if c = sep then some (c :: cs) else none

/-- The text before the last occurrence of a byte, when the byte occurs. -/
def beforeLastByte (sep : Nat) : List Nat → Option (List Nat)
  | [] => none
  | c :: cs =>
    match beforeLastByte sep cs with
    | some r => some (c :: r)
    | none => if c = sep then some [] else none

/-- The parts of a URL, as the struct `url.Userinfo` has them. -/
structure Userinfo where
  username : List Nat
  password : List Nat
  passwordSet : Bool
deriving DecidableEq, Repr

/-- The parts of a URL, as the struct `url.URL` has them. -/
structure URL where
  Scheme : List Nat
  Opaque : List Nat
  User : Option Userinfo
  Host : List Nat
  Path : List Nat
  RawPath : List Nat
  OmitHost : Bool
  ForceQuery : Bool
  RawQuery : List Nat
  Fragment : List Nat
  RawFragment : List Nat
deriving DecidableEq, Repr

/-- The zero value of `url.URL`. -/
def URL.zero : URL :=
  { Scheme := [], Opaque := [], User := none, Host := [], Path := [], RawPath := [],
    OmitHost := false, ForceQuery := false, RawQuery := [], Fragment := [], RawFragment := [] }

/-- The errors of `url.Parse`. -/
inductive URLError where
  | invalidControlCharacter
  | missingProtocolScheme
  | colonInFirstPathSegment
  | escapeError (s : List Nat)
  | invalidHostError (s : List Nat)
  | invalidPort (s : List Nat)
  | missingBracket
  | invalidUserinfo
deriving DecidableEq, Repr

/-- The part of a URL a text is escaped for. -/
inductive Encoding where
  | encodePath
  | encodePathSegment
  | encodeHost
  | encodeZone
  | encodeUserPassword
  | encodeQueryComponent
  | encodeFragment
deriving DecidableEq, Repr

/-- The function `stringContainsCTLByte`: a byte below U+0020 or the byte 0x7f. -/
def stringContainsCTLByte (s : List Nat) : Bool :=
  s.any (fun b => decide (b < 0x20) || b == 0x7f)

/-- An ASCII letter. -/
def isAlpha (c : Nat) : Bool :=
  (decide (0x61 ≤ c) && decide (c ≤ 0x7a)) || (decide (0x41 ≤ c) && decide (c ≤ 0x5a))

/-- An ASCII digit. -/
def isNum (c : Nat) : Bool :=
  decide (0x30 ≤ c) && decide (c ≤ 0x39)

/-- The function `ishex`. -/
def ishex (c : Nat) : Bool :=
  isNum c || (decide (0x61 ≤ c) && decide (c ≤ 0x66)) || (decide (0x41 ≤ c) && decide (c ≤ 0x46))

/-- The function `unhex`. -/
def unhex (c : Nat) : Nat :=
  if isNum c then c - 0x30
  else if 0x61 ≤ c ∧ c ≤ 0x66 then c - 0x61 + 10
  else if 0x41 ≤ c ∧ c ≤ 0x46 then c - 0x41 + 10
  else 0

/-- The function `shouldEscape`: whether a byte has to be escaped in the given
part of a URL. -/
def shouldEscape (c : Nat) (mode : Encoding) : Bool :=
  if isAlpha c || isNum c then false
  else if (mode = Encoding.encodeHost ∨ mode = Encoding.encodeZone) ∧
      c ∈ [0x21, 0x24, 0x26, 0x27, 0x28, 0x29, 0x2a, 0x2b, 0x2c, 0x3b, 0x3d, 0x3a, 0x5b, 0x5d,
        0x3c, 0x3e, 0x22] then false
  else if c ∈ [0x2d, 0x5f, 0x2e, 0x7e] then false
  else if c ∈ [0x24, 0x26, 0x2b, 0x2c, 0x2f, 0x3a, 0x3b, 0x3d, 0x3f, 0x40] then
    match mode with
    | Encoding.encodePath => c == 0x3f
    | Encoding.encodePathSegment => c == 0x2f || c == 0x3b || c == 0x2c || c == 0x3f
    | Encoding.encodeUserPassword => c == 0x40 || c == 0x2f || c == 0x3f || c == 0x3a
    | Encoding.encodeQueryComponent => true
    | Encoding.encodeFragment => false
    | _ => true
  else if mode = Encoding.encodeFragment ∧ c ∈ [0x21, 0x28, 0x29, 0x2a] then false
  else true

/-- The first loop of `unescape`: every percent sign starts a well-formed
escape that the part allows, and a host has no byte that would need one. -/
def checkEscapes (mode : Encoding) : Nat → List Nat → Except URLError Unit
  | 0, _ => Except.ok ()
  | _ + 1, [] => Except.ok ()
  | fuel + 1, c :: rest =>
    if c = 0x25 then
      match rest with
      | h1 :: h2 :: rest2 =>
        if !(ishex h1 && ishex h2) then Except.error (URLError.escapeError [c, h1, h2])
        else if mode = Encoding.encodeHost ∧ unhex h1 < 8 ∧ [h1, h2] ≠ [0x32, 0x35] then
          Except.error (URLError.escapeError [c, h1, h2])
        else if mode = Encoding.encodeZone ∧ [h1, h2] ≠ [0x32, 0x35] ∧
            unhex h1 * 16 + unhex h2 ≠ 0x20 ∧
            shouldEscape (unhex h1 * 16 + unhex h2) Encoding.encodeHost = true then
          Except.error (URLError.escapeError [c, h1, h2])
        else checkEscapes mode fuel rest2
      | _ => Except.error (URLError.escapeError (c :: rest))
    else if (mode = Encoding.encodeHost ∨ mode = Encoding.encodeZone) ∧ c < 0x80 ∧
        shouldEscape c Encoding.encodeHost = true then
      Except.error (URLError.invalidHostError [c])
    else checkEscapes mode fuel rest

/-- The second loop of `unescape`: the text with its escapes replaced (and, in a
query component, each plus sign by a space). -/
def unescapeBytes (mode : Encoding) : Nat → List Nat → List Nat
  | 0, _ => []
  | _ + 1, [] => []
  | fuel + 1, c :: rest =>
    if c = 0x25 then
      match rest with
      | h1 :: h2 :: rest2 => (unhex h1 * 16 + unhex h2) :: unescapeBytes mode fuel rest2
      | _ => c :: unescapeBytes mode fuel rest
    else if c = 0x2b ∧ mode = Encoding.encodeQueryComponent then 0x20 :: unescapeBytes mode fuel rest
    else c :: unescapeBytes mode fuel rest

/-- The function `unescape`. -/
def unescape (s : List Nat) (mode : Encoding) : Except URLError (List Nat) :=
  match checkEscapes mode s.length s with
  | Except.error e => Except.error e
  | Except.ok _ => Except.ok (unescapeBytes mode s.length s)

/-- The upper-case hexadecimal digit of a value below 16. -/
def upperhex (n : Nat) : Nat :=
  if n < 10 then 0x30 + n else 0x41 + (n - 10)

/-- The function `escape`. -/
def escape (s : List Nat) (mode : Encoding) : List Nat :=
  s.flatMap (fun c =>
    if shouldEscape c mode then
      if c = 0x20 ∧ mode = Encoding.encodeQueryComponent then [0x2b]
      else [0x25, upperhex (c / 16), upperhex (c % 16)]
    else [c])

/-- The method `setPath`: the path unescaped, and the raw path kept when it is
not the default escaping of the path. -/
def URL.setPath (u : URL) (p : List Nat) : Except URLError URL :=
  match unescape p Encoding.encodePath with
  | Except.error e => Except.error e
  | Except.ok path =>
    Except.ok { u with Path := path,
                       RawPath := if p = escape path Encoding.encodePath then [] else p }

/-- The method `setFragment`. -/
def URL.setFragment (u : URL) (f : List Nat) : Except URLError URL :=
  match unescape f Encoding.encodeFragment with
  | Except.error e => Except.error e
  | Except.ok frag =>
    Except.ok { u with Fragment := frag,
                       RawFragment := if f = escape frag Encoding.encodeFragment then [] else f }

/-- The function `getScheme`: the scheme before the first colon, when the text
starts with a letter and has only scheme characters up to that colon. -/
def getSchemeAux (rawURL : List Nat) : Nat → List Nat → Except URLError (List Nat × List Nat)
  | _, [] => Except.ok ([], rawURL)
  | i, c :: cs =>
    if isAlpha c then getSchemeAux rawURL (i + 1) cs
    else if isNum c || c == 0x2b || c == 0x2d || c == 0x2e then
      if i = 0 then Except.ok ([], rawURL) else getSchemeAux rawURL (i + 1) cs
    else if c = 0x3a then
      if i = 0 then Except.error URLError.missingProtocolScheme
      else Except.ok (rawURL.take i, cs)
    else Except.ok ([], rawURL)

/-- The function `getScheme`, from the start of the text. -/
def getScheme (rawURL : List Nat) : Except URLError (List Nat × List Nat) :=
  getSchemeAux rawURL 0 rawURL

/-- The function `strings.ToLower` on ASCII text. -/
def toLower (s : List Nat) : List Nat :=
  s.map (fun c => if 0x41 ≤ c ∧ c ≤ 0x5a then c + 0x20 else c)

/-- The function `validOptionalPort`: nothing, or a colon and digits. -/
def validOptionalPort (port : List Nat) : Bool :=
  match port with
  | [] => true
  | c :: ds => c == 0x3a && ds.all isNum

/-- The function `validUserinfo`. -/
def validUserinfo (s : List Nat) : Bool :=
  s.all (fun r => isAlpha r || isNum r ||
    decide (r ∈ [0x2d, 0x2e, 0x5f, 0x3a, 0x7e, 0x21, 0x24, 0x26, 0x27, 0x28, 0x29, 0x2a, 0x2b,
      0x2c, 0x3b, 0x3d, 0x25, 0x40]))

/-- The position of the first occurrence of `%25` in a text. -/
def indexOfZone : List Nat → Option Nat
  | [] => none
  | c :: cs =>
    if [0x25, 0x32, 0x35].isPrefixOf (c :: cs) then some 0
    else (indexOfZone cs).map (fun i => i + 1)

/-- The function `parseHost`. -/
def parseHost (host : List Nat) : Except URLError (List Nat) :=
  if host.head? = some 0x5b then
    match beforeLastByte 0x5d host, fromLastByte 0x5d host with
    | some inner, some tail =>
      if !validOptionalPort (tail.drop 1) then Except.error (URLError.invalidPort (tail.drop 1))
      else
        match indexOfZone inner with
        | some z =>
          match unescape (inner.take z) Encoding.encodeHost with
          | Except.error e => Except.error e
          | Except.ok host1 =>
            match unescape (inner.drop z) Encoding.encodeZone with
            | Except.error e => Except.error e
            | Except.ok host2 =>
              match unescape tail Encoding.encodeHost with
              | Except.error e => Except.error e
              | Except.ok host3 => Except.ok (host1 ++ host2 ++ host3)
        | none => unescape host Encoding.encodeHost
    | _, _ => Except.error URLError.missingBracket
  else
    match fromLastByte 0x3a host with
    | some colonPort =>
      if !validOptionalPort colonPort then Except.error (URLError.invalidPort colonPort)
      else unescape host Encoding.encodeHost
    | none => unescape host Encoding.encodeHost

/-- The function `parseAuthority`: the user information before the last `@`
and the host after it. -/
def parseAuthority (authority : List Nat) : Except URLError (Option Userinfo × List Nat) :=
  match beforeLastByte 0x40 authority, fromLastByte 0x40 authority with
  | some userinfo, some atHost =>
    match parseHost (atHost.drop 1) with
    | Except.error e => Except.error e
    | Except.ok host =>
      if !validUserinfo userinfo then Except.error URLError.invalidUserinfo
      else if !userinfo.contains 0x3a then
        match unescape userinfo Encoding.encodeUserPassword with
        | Except.error e => Except.error e
        | Except.ok name =>
          Except.ok (some { username := name, password := [], passwordSet := false }, host)
      else
        match unescape (cutByte 0x3a userinfo).1 Encoding.encodeUserPassword with
        | Except.error e => Except.error e
        | Except.ok name =>
          match unescape (cutByte 0x3a userinfo).2 Encoding.encodeUserPassword with
          | Except.error e => Except.error e
          | Except.ok pass =>
            Except.ok (some { username := name, password := pass, passwordSet := true }, host)
  | _, _ =>
    match parseHost authority with
    | Except.error e => Except.error e
    | Except.ok host => Except.ok (none, host)

/-- The function `parse` (with `viaRequest` false): the URL of a text that has
no fragment. -/
def parseNoFragment (rawURL : List Nat) : Except URLError URL :=
  if stringContainsCTLByte rawURL then Except.error URLError.invalidControlCharacter
  else if rawURL = [0x2a] then Except.ok { URL.zero with Path := [0x2a] }
  else
    match getScheme rawURL with
    | Except.error e => Except.error e
    | Except.ok (scheme, afterScheme) =>
      let force : Bool := afterScheme.getLast? == some 0x3f && afterScheme.count 0x3f == 1
      let rest : List Nat := if force then afterScheme.dropLast else (cutByte 0x3f afterScheme).1
      let query : List Nat := if force then [] else (cutByte 0x3f afterScheme).2
      let url : URL :=
        { URL.zero with Scheme := toLower scheme, ForceQuery := force, RawQuery := query }
      if rest.head? ≠ some 0x2f ∧ scheme ≠ [] then Except.ok { url with Opaque := rest }
      else if rest.head? ≠ some 0x2f ∧ (cutByte 0x2f rest).1.contains 0x3a then
        Except.error URLError.colonInFirstPathSegment
      else if (scheme ≠ [] ∨ ¬ [0x2f, 0x2f, 0x2f].isPrefixOf rest = true) ∧
          [0x2f, 0x2f].isPrefixOf rest = true then
        let authority : List Nat := (rest.drop 2).takeWhile (fun c => c != 0x2f)
        let path : List Nat := (rest.drop 2).dropWhile (fun c => c != 0x2f)
        match parseAuthority authority with
        | Except.error e => Except.error e
        | Except.ok (user, host) => URL.setPath { url with User := user, Host := host } path
      else if scheme ≠ [] ∧ rest.head? = some 0x2f then
        URL.setPath { url with OmitHost := true } rest
      else URL.setPath url rest

/-- The function `url.Parse` on the bytes of a text: the fragment is cut off at
the first `#` and set after the rest has been parsed. -/
def parseBytes (rawURL : List Nat) : Except URLError URL :=
  match parseNoFragment (cutByte 0x23 rawURL).1 with
  | Except.error e => Except.error e
  | Except.ok url =>
    if (cutByte 0x23 rawURL).2 = [] then Except.ok url
    else URL.setFragment url (cutByte 0x23 rawURL).2

/-- The function `url.Parse`. -/
def urlParse (rawURL : String) : Except URLError URL :=
  parseBytes (toBytes rawURL)

/-! ## HTTP requests (`net/http`) -/

/-- The token characters of HTTP (`validHeaderFieldByte`, `IsTokenRune`):
letters, digits and the marks of RFC 7230. -/
def isTokenChar (c : Char) : Bool :=
  isAlpha c.toNat || isNum c.toNat ||
    decide (c.toNat ∈ [0x21, 0x23, 0x24, 0x25, 0x26, 0x27, 0x2a, 0x2b, 0x2d, 0x2e, 0x5e, 0x5f,
      0x60, 0x7c, 0x7e])

/-- The second loop of `canonicalMIMEHeaderKey`: upper case for the first
letter and for a letter after a dash, lower case for the other letters. -/
def canonicalLetters : Bool → List Char → List Char
  | _, [] => []
  | upper, c :: cs =>
    let d : Char :=
      if upper = true ∧ 0x61 ≤ c.toNat ∧ c.toNat ≤ 0x7a then Char.ofNat (c.toNat - 0x20)
      else if upper = false ∧ 0x41 ≤ c.toNat ∧ c.toNat ≤ 0x5a then Char.ofNat (c.toNat + 0x20)
      else c
    d :: canonicalLetters (d.toNat == 0x2d) cs

/-- The function `textproto.CanonicalMIMEHeaderKey`: a key that has a byte
outside the token characters is returned unchanged. -/
def CanonicalMIMEHeaderKey (s : String) : String :=
  if s.data.all isTokenChar then String.mk (canonicalLetters true s.data) else s

/-- A `http.Header`: the keys with their values. -/
abbrev Header := List (String × List String)

/-- The method `Header.Add`: appends a value under the canonical form of the key. -/
def Header.Add (h : Header) (key value : String) : Header :=
  if h.any (fun kv => kv.1 == CanonicalMIMEHeaderKey key) then
    h.map (fun kv => if kv.1 == CanonicalMIMEHeaderKey key then (kv.1, kv.2 ++ [value]) else kv)
  else h ++ [(CanonicalMIMEHeaderKey key, [value])]

/-- The method `Header.Get`: the first value under the canonical form of the
key, or the empty string. -/
def Header.Get (h : Header) (key : String) : String :=
  match h.find? (fun kv => kv.1 == CanonicalMIMEHeaderKey key) with
  | some (_, v :: _) => v
  | _ => ""

/-- The fields of a `http.Request` that `NewRequest` fills in from its
arguments; the body is the content of the buffer. -/
structure Request where
  Method : String
  URL : URL
  Header : Header
  Body : String
  ContentLength : Nat
  Host : List Nat
deriving DecidableEq, Repr

/-- The transport `&http.Transport{Proxy: http.ProxyURL(u)}`: every request
goes through the proxy `u`. -/
structure Transport where
  Proxy : URL
deriving DecidableEq, Repr

/-- The fields of a `http.Client` that `SendMessage` sets: the time limit in
nanoseconds and the transport, nil for the default one. -/
structure Client where
  Timeout : Nat
  Transport : Option Transport
deriving DecidableEq, Repr

/-- What the caller reads of a `http.Response`: the status code and what
`ioutil.ReadAll(res.Body)` returns. -/
structure HTTPResponse where
  StatusCode : Nat
  Body : Except String String

/-- The errors the functions of `line.go` return. -/
inductive Error where
  | new (text : String)
  | json (e : JSONError)
  | url (e : URLError)
  | invalidMethod (method : String)
  | io (cause : String)
  | transport (cause : String)
deriving DecidableEq, Repr

/-- The outside world of `SendMessage`: what `client.Do(req)` returns, a
transport failure or a response. -/
abbrev Network := Client → Request → Except Error HTTPResponse

/-- The function `validMethod`. -/
def validMethod (method : String) : Bool :=
  !method.data.isEmpty && method.data.all isTokenChar

/-- The function `removeEmptyPort`: a host that ends in a colon after its last
bracket loses that colon. -/
def removeEmptyPort (host : List Nat) : List Nat :=
  match fromLastByte 0x3a host with
  | some colonPort =>
    if colonPort.contains 0x5d then host
    else if host.getLast? = some 0x3a then host.dropLast else host
  | none => host

/-- The function `http.NewRequest` for a body held in a `bytes.Buffer`. -/
def NewRequest (method url body : String) : Except Error Request :=
  if !validMethod (if method = "" then "GET" else method) then
    Except.error (Error.invalidMethod method)
  else
    match urlParse url with
    | Except.error e => Except.error (Error.url e)
    | Except.ok u =>
      Except.ok { Method := if method = "" then "GET" else method,
                  URL := { u with Host := removeEmptyPort u.Host },
                  Header := [],
                  Body := body,
                  ContentLength := body.utf8ByteSize,
                  Host := removeEmptyPort u.Host }

/-- The call `json.Marshal(m)` for a `SendingMessage`; no value of that type
makes it fail. -/
def jsonMarshal (m : SendingMessage) : Except Error String :=
  Except.ok (render m.toJSON)

/-! ## The client of `line.go` -/

/-- The logger `log.New(os.Stderr, tag, flag)`; what it writes is not part of
the model. -/
structure Logger where
  tag : String
  flag : Nat
deriving DecidableEq, Repr

/-- API represents LINE BOT API.  The field `Logger` holds a logger (it is
never nil in the model). -/
structure API where
  channelID : String
  channelSecret : String
  mID : String
  proxyURL : Option URL
  Logger : Logger
  Debug : Bool
deriving DecidableEq, Repr

/-- New creates an API instance. -/
def New (channelID : String) (channelSecret : String) (mid : String) : API :=
  { channelID := channelID,
    channelSecret := channelSecret,
    mID := mid,
    proxyURL := none,
    Logger := { tag := "line-bot-api", flag := 0 },
    Debug := false }

/-- DecodeMessage decodes body to ReceivedMessage struct.  The argument is what
`ioutil.ReadAll(body)` returns; the result is the client after the call and the
pair the function returns, an error standing for `nil, err`.  With `Debug` set
the body is written to the logger before it is parsed; the log is not part of
the model. -/
def DecodeMessage (api : API) (body : Except String String) : API × Except Error ReceivedMessage :=
  match body with
  | Except.error cause => (api, Except.error (Error.io cause))
  | Except.ok b =>
    match unmarshalReceivedMessage b with
    | Except.error e => (api, Except.error (Error.json e))
    | Except.ok m => (api, Except.ok m)

/-- SetProxy set Proxy from URL string: the client after the call and the error
returned.  The result of `url.Parse` is assigned to the field whatever the
error is, and it is nil when there is an error. -/
def SetProxy (api : API) (proxyURL : String) : API × Option Error :=
  match urlParse proxyURL with
  | Except.error e => ({ api with proxyURL := none }, some (Error.url e))
  | Except.ok u => ({ api with proxyURL := some u }, none)

/-- What a call of `SendMessage` does: the client after the call, the error
returned (`none` for nil) and the calls of `client.Do` made, in order. -/
structure SendOutcome where
  api : API
  err : Option Error
  sent : List (Client × Request)

/-- The envelope `SendMessage` builds. -/
def envelope (to_ : Option (List String)) (text : String) : SendingMessage :=
  { To := to_,
    ToChannel := defaultToChannel,
    EventType := defaultEventType,
    Content := { Content.zero with ContentType := 1, ToType := 1, Text := text } }

/-- The client `SendMessage` builds: a time limit of 30 seconds, and a
transport through the proxy when the client has one. -/
def httpClient (api : API) : Client :=
  match api.proxyURL with
  | some u => { Timeout := 30 * 1000000000, Transport := some { Proxy := u } }
  | none => { Timeout := 30 * 1000000000, Transport := none }

/-- The four `req.Header.Add` calls of `SendMessage`. -/
def addHeaders (api : API) (req : Request) : Request :=
  let h1 : Header := Header.Add req.Header "Content-Type" "application/json; charset=UTF-8"
  let h2 : Header := Header.Add h1 "X-Line-ChannelID" api.channelID
  let h3 : Header := Header.Add h2 "X-Line-ChannelSecret" api.channelSecret
  let h4 : Header := Header.Add h3 "X-Line-Trusted-User-With-ACL" api.mID
  { req with Header := h4 }

/-- SendMessage sends a text to LINE.  The parsed response is written to the
logger before nil is returned; the log is not part of the model. -/
def SendMessage (net : Network) (api : API) (to_ : Option (List String)) (text : String) :
    SendOutcome :=
  match jsonMarshal (envelope to_ text) with
  | Except.error e => { api := api, err := some e, sent := [] }
  | Except.ok b =>
    if b.utf8ByteSize > 8192 then
      { api := api,
        err := some (Error.new "The size of API request is too long (over 8192 bytes)."),
        sent := [] }
    else
      match NewRequest "POST" (baseEndPoint ++ "/v1/events") b with
      | Except.error e => { api := api, err := some e, sent := [] }
      | Except.ok req0 =>
        match net (httpClient api) (addHeaders api req0) with
        | Except.error e =>
          { api := api, err := some e, sent := [(httpClient api, addHeaders api req0)] }
        | Except.ok res =>
          match res.Body with
          | Except.error cause =>
            { api := api, err := some (Error.io cause),
              sent := [(httpClient api, addHeaders api req0)] }
          | Except.ok body =>
            match unmarshalMap body with
            | Except.error e =>
              { api := api, err := some (Error.json e),
                sent := [(httpClient api, addHeaders api req0)] }
            | Except.ok _ =>
              { api := api, err := none, sent := [(httpClient api, addHeaders api req0)] }

/-! ## Definitions used to state the results

None of these is part of `line.go`: they name the requests, networks, call
sequences and documents the results speak of, and the reading of a document
that section 6 of the specification describes. -/

/-! ### Requests and networks -/

/-- The request of `SendMessage` for a body, before the headers are added. -/
def endpointRequest (b : String) : Request :=
  { Method := "POST",
    URL := { URL.zero with Scheme := toBytes "https",
                           Host := toBytes "trialbot-api.line.me",
                           Path := toBytes "/v1/events" },
    Header := [],
    Body := b,
    ContentLength := b.utf8ByteSize,
    Host := toBytes "trialbot-api.line.me" }

/-- A network that refuses every connection. -/
def refusingNetwork : Network :=
  fun _ _ => Except.error (Error.transport "connection refused")

/-- A network that answers every request with the given status code and body. -/
def answeringNetwork (status : Nat) (body : String) : Network :=
  fun _ _ => Except.ok { StatusCode := status, Body := Except.ok body }

/-! ### The outbound schema (section 6 of the specification) -/

/-- The keys of an object, in order. -/
def memberKeys : JSON → List String
  | JSON.obj kvs => kvs.map Prod.fst
  | _ => []

/-- The value an object has under a key, `null` when it has none. -/
def memberOf (j : JSON) (key : String) : JSON :=
  match j with
  | JSON.obj kvs => (kvs.lookup key).getD JSON.null
  | _ => JSON.null

/-- The outbound send JSON as section 6 of the specification lists it: the four
keys of the envelope and a content object of three keys. -/
def outboundSchema (to_ : List String) (text : String) : JSON :=
  JSON.obj [("to", JSON.arr (to_.map JSON.str)),
    ("toChannel", intToJSON 1383378250),
    ("eventType", JSON.str "138311608800106203"),
    ("content", JSON.obj [("contentType", intToJSON 1), ("toType", intToJSON 1),
      ("text", JSON.str text)])]

/-- The object `Marshal` writes for the envelope of `SendMessage`: the content
object has the nine keys of `Content`. -/
def envelopeJSON (to_ : Option (List String)) (text : String) : JSON :=
  JSON.obj [("to", stringsToJSON to_),
    ("toChannel", intToJSON 1383378250),
    ("eventType", JSON.str "138311608800106203"),
    ("content", JSON.obj [("id", JSON.str ""), ("contentType", intToJSON 1),
      ("from", JSON.str ""), ("createdTime", intToJSON 0), ("to", JSON.null),
      ("toType", intToJSON 1),
      ("contentMetadata", JSON.obj [("STKPKGID", JSON.str ""), ("STKID", JSON.str ""),
        ("STKVER", JSON.str ""), ("STKTXT", JSON.str ""), ("mid", JSON.str ""),
        ("displayName", JSON.str "")]),
      ("text", JSON.str text),
      ("location", JSON.obj [("title", JSON.str ""), ("address", JSON.str ""),
        ("latitude", intToJSON 0), ("Longitude", intToJSON 0)])])]

/-! ### Well-formed URLs (RFC 3986) and plain texts -/

/-- A character RFC 3986 allows in a URI: a letter, a digit, one of the marks
`-._~`, a reserved character or the percent sign. -/
def isURIChar (c : Char) : Bool :=
  isAlpha c.toNat || isNum c.toNat ||
    decide (c.toNat ∈ [0x2d, 0x2e, 0x5f, 0x7e, 0x3a, 0x2f, 0x3f, 0x23, 0x5b, 0x5d, 0x40,
      0x21, 0x24, 0x26, 0x27, 0x28, 0x29, 0x2a, 0x2b, 0x2c, 0x3b, 0x3d, 0x25])

/-- The text goes on with scheme characters up to a colon. -/
def schemeEnds : List Char → Bool
  | [] => false
  | c :: cs =>
    if c.toNat = 0x3a then true
    else if isAlpha c.toNat || isNum c.toNat || c.toNat == 0x2b || c.toNat == 0x2d ||
        c.toNat == 0x2e then schemeEnds cs
    else false

/-- The text starts with a scheme and a colon. -/
def hasScheme : List Char → Bool
  | [] => false
  | c :: cs => isAlpha c.toNat && schemeEnds cs

/-- A well-formed URL, as the specification asks of the proxy text, read with
RFC 3986: a scheme, a colon, and nothing but characters a URI may hold. -/
def wellFormedURL (s : String) : Bool :=
  hasScheme s.data && s.data.all isURIChar

/-- A text without control characters and without `%`, `:`, `#` and `?` that does
not start with a slash; it may hold spaces and any other character. -/
def isPlainText (s : String) : Bool :=
  !stringContainsCTLByte (toBytes s) &&
    (toBytes s).all (fun b => !(b == 0x25 || b == 0x3a || b == 0x23 || b == 0x3f)) &&
    (toBytes s).head? != some 0x2f

/-! ### Sequences of calls -/

/-- A call on the client. -/
inductive Call where
  | setProxy (proxyURL : String)
  | decodeMessage (body : Except String String)
  | sendMessage (net : Network) (to_ : Option (List String)) (text : String)

/-- The client after a call. -/
def Call.apply (api : API) : Call → API
  | Call.setProxy proxyURL => (SetProxy api proxyURL).1
  | Call.decodeMessage body => (DecodeMessage api body).1
  | Call.sendMessage net to_ text => (SendMessage net api to_ text).api

/-- The client after a sequence of calls. -/
def runCalls (api : API) (calls : List Call) : API :=
  calls.foldl Call.apply api

/-- The argument of the most recent `SetProxy` call of a sequence. -/
def lastSetProxy (calls : List Call) : Option String :=
  calls.foldl (fun acc c =>
    match c with
    | Call.setProxy proxyURL => some proxyURL
    | _ => acc) none

/-! ### The inbound schema (section 6 of the specification)

A document is read key by key, each key spelled as the schema spells it (so
`longitude` in lower case); `matchesInboundSchema` says that a document has the
shape of the schema. -/

/-- The string a document gives under a key, or the default. -/
def readString (old : String) (kvs : List (String × JSON)) (key : String) : String :=
  match kvs.lookup key with
  | some (JSON.str s) => s
  | _ => old

/-- The integer a document gives under a key, or the default. -/
def readInt (old : Int) (kvs : List (String × JSON)) (key : String) : Int :=
  match kvs.lookup key with
  | some (JSON.num n) => n.toInt
  | _ => old

/-- The string of a string value. -/
def stringOf : JSON → String
  | JSON.str s => s
  | _ => ""

/-- The list of strings a document gives under a key, or the default. -/
def readStrings (old : Option (List String)) (kvs : List (String × JSON)) (key : String) :
    Option (List String) :=
  match kvs.lookup key with
  | some (JSON.arr xs) => some (xs.map stringOf)
  | _ => old

/-- A `string` of the schema. -/
def isStringValue : JSON → Bool
  | JSON.str _ => true
  | _ => false

/-- An `int` of the schema: an integer literal within the range of the type. -/
def isIntValue : JSON → Bool
  | JSON.num n => n.isIntLit && decide (minInt ≤ n.toInt) && decide (n.toInt ≤ maxInt)
  | _ => false

/-- A `[string]` of the schema. -/
def isStringArray : JSON → Bool
  | JSON.arr xs => xs.all isStringValue
  | _ => false

/-- An object whose keys are distinct and whose members all have the type the
schema gives for their key. -/
def matchesObject (typ : String → JSON → Bool) : JSON → Bool
  | JSON.obj kvs => decide (kvs.map Prod.fst).Nodup && kvs.all (fun kv => typ kv.1 kv.2)
  | _ => false

/-- The location a document gives, over the defaults of a given one. -/
def Location.merge (l : Location) (kvs : List (String × JSON)) : Location :=
  { Title := readString l.Title kvs "title",
    Address := readString l.Address kvs "address",
    Latitude := readInt l.Latitude kvs "latitude",
    Longitude := readInt l.Longitude kvs "longitude" }

/-- The type the schema gives for a key of the location object. -/
def locationMemberType (k : String) (v : JSON) : Bool :=
  if k = "title" ∨ k = "address" then isStringValue v
  else if k = "latitude" ∨ k = "longitude" then isIntValue v
  else false

/-- The metadata a document gives, over the defaults of a given one. -/
def ContentMetadata.merge (m : ContentMetadata) (kvs : List (String × JSON)) : ContentMetadata :=
  { STKPKGID := readString m.STKPKGID kvs "STKPKGID",
    STKID := readString m.STKID kvs "STKID",
    STKVER := readString m.STKVER kvs "STKVER",
    STKTXT := readString m.STKTXT kvs "STKTXT",
    Mid := readString m.Mid kvs "mid",
    DisplayName := readString m.DisplayName kvs "displayName" }

/-- The type the schema gives for a key of the metadata object. -/
def metadataMemberType (k : String) (v : JSON) : Bool :=
  if k = "STKPKGID" ∨ k = "STKID" ∨ k = "STKVER" ∨ k = "STKTXT" ∨ k = "mid" ∨
      k = "displayName" then isStringValue v
  else false

/-- The content a document gives, over the defaults of a given one. -/
def Content.merge (c : Content) (kvs : List (String × JSON)) : Content :=
  { ID := readString c.ID kvs "id",
    ContentType := readInt c.ContentType kvs "contentType",
    From := readString c.From kvs "from",
    CreatedTime := readInt c.CreatedTime kvs "createdTime",
    To := readStrings c.To kvs "to",
    ToType := readInt c.ToType kvs "toType",
    ConentMetadata :=
      match kvs.lookup "contentMetadata" with
      | some (JSON.obj m) => c.ConentMetadata.merge m
      | _ => c.ConentMetadata,
    Text := readString c.Text kvs "text",
    Location :=
      match kvs.lookup "location" with
      | some (JSON.obj m) => c.Location.merge m
      | _ => c.Location }

/-- The type the schema gives for a key of the content object. -/
def contentMemberType (k : String) (v : JSON) : Bool :=
  if k = "id" ∨ k = "from" ∨ k = "text" then isStringValue v
  else if k = "contentType" ∨ k = "createdTime" ∨ k = "toType" then isIntValue v
  else if k = "to" then isStringArray v
  else if k = "contentMetadata" then matchesObject metadataMemberType v
  else if k = "location" then matchesObject locationMemberType v
  else false

/-- The event a document gives, over the defaults of a given one. -/
def Result.merge (r : Result) (kvs : List (String × JSON)) : Result :=
  { ID := readString r.ID kvs "id",
    From := readString r.From kvs "from",
    FromChannel := readInt r.FromChannel kvs "fromChannel",
    To := readStrings r.To kvs "to",
    ToChannel := readInt r.ToChannel kvs "toChannel",
    EventType := readString r.EventType kvs "eventType",
    Content :=
      match kvs.lookup "content" with
      | some (JSON.obj m) => r.Content.merge m
      | _ => r.Content }

/-- The type the schema gives for a key of an event. -/
def eventMemberType (k : String) (v : JSON) : Bool :=
  if k = "id" ∨ k = "from" ∨ k = "eventType" then isStringValue v
  else if k = "fromChannel" ∨ k = "toChannel" then isIntValue v
  else if k = "to" then isStringArray v
  else if k = "content" then matchesObject contentMemberType v
  else false

/-- The event a document of the schema describes. -/
def schemaEvent : JSON → Result
  | JSON.obj kvs => Result.zero.merge kvs
  | _ => Result.zero

/-- The batch a document of the schema describes. -/
def schemaBatch : JSON → ReceivedMessage
  | JSON.obj kvs =>
    { Results :=
        match kvs.lookup "result" with
        | some (JSON.arr xs) => some (xs.map schemaEvent)
        | _ => none }
  | _ => ReceivedMessage.zero

/-- The type the schema gives for the key `result`. -/
def batchMemberType (k : String) (v : JSON) : Bool :=
  if k = "result" then
    match v with
    | JSON.arr xs => xs.all (matchesObject eventMemberType)
    | _ => false
  else false

/-- A document matches the inbound webhook schema: at every level an object with
distinct keys out of those the schema lists, in any order, each with a value of
the listed type. -/
def matchesInboundSchema (doc : JSON) : Bool :=
  matchesObject batchMemberType doc

/-! ### Absent fields and unmatched members -/

/-- No key of the object is decoded into the field of the given index. -/
def absent (names : List String) (kvs : List (String × JSON)) (i : Nat) : Prop :=
  ∀ kv ∈ kvs, findField names kv.1 ≠ some i

/-- Every field of a `Location` that no key of the object is decoded into has
its zero value. -/
def Location.zeroWhereAbsent (kvs : List (String × JSON)) (l : Location) : Prop :=
  (absent Location.names kvs 0 → l.Title = "") ∧
  (absent Location.names kvs 1 → l.Address = "") ∧
  (absent Location.names kvs 2 → l.Latitude = 0) ∧
  (absent Location.names kvs 3 → l.Longitude = 0)

/-- Every field of a `ContentMetadata` that no key is decoded into is zero. -/
def ContentMetadata.zeroWhereAbsent (kvs : List (String × JSON)) (m : ContentMetadata) : Prop :=
  (absent ContentMetadata.names kvs 0 → m.STKPKGID = "") ∧
  (absent ContentMetadata.names kvs 1 → m.STKID = "") ∧
  (absent ContentMetadata.names kvs 2 → m.STKVER = "") ∧
  (absent ContentMetadata.names kvs 3 → m.STKTXT = "") ∧
  (absent ContentMetadata.names kvs 4 → m.Mid = "") ∧
  (absent ContentMetadata.names kvs 5 → m.DisplayName = "")

/-- Every field of a `Content` that no key is decoded into is zero. -/
def Content.zeroWhereAbsent (kvs : List (String × JSON)) (c : Content) : Prop :=
  (absent Content.names kvs 0 → c.ID = "") ∧
  (absent Content.names kvs 1 → c.ContentType = 0) ∧
  (absent Content.names kvs 2 → c.From = "") ∧
  (absent Content.names kvs 3 → c.CreatedTime = 0) ∧
  (absent Content.names kvs 4 → c.To = none) ∧
  (absent Content.names kvs 5 → c.ToType = 0) ∧
  (absent Content.names kvs 6 → c.ConentMetadata = ContentMetadata.zero) ∧
  (absent Content.names kvs 7 → c.Text = "") ∧
  (absent Content.names kvs 8 → c.Location = Location.zero)

/-- Every field of a `Result` that no key is decoded into is zero. -/
def Result.zeroWhereAbsent (kvs : List (String × JSON)) (r : Result) : Prop :=
  (absent Result.names kvs 0 → r.ID = "") ∧
  (absent Result.names kvs 1 → r.From = "") ∧
  (absent Result.names kvs 2 → r.FromChannel = 0) ∧
  (absent Result.names kvs 3 → r.To = none) ∧
  (absent Result.names kvs 4 → r.ToChannel = 0) ∧
  (absent Result.names kvs 5 → r.EventType = "") ∧
  (absent Result.names kvs 6 → r.Content = Content.zero)

/-- The events of a `ReceivedMessage` that no key is decoded into are nil. -/
def ReceivedMessage.zeroWhereAbsent (kvs : List (String × JSON)) (m : ReceivedMessage) : Prop :=
  absent ReceivedMessage.names kvs 0 → m.Results = none

/-- The members of an object that some field matches, each value rewritten by
the function given for the field. -/
def pruneMembers (names : List String) (sub : Nat → JSON → JSON)
    (kvs : List (String × JSON)) : List (String × JSON) :=
  kvs.filterMap (fun kv =>
    match findField names kv.1 with
    | none => none
    | some i => some (kv.1, sub i kv.2))

/-- An object without its unmatched members; another value as it is. -/
def pruneObject (names : List String) (sub : Nat → JSON → JSON) : JSON → JSON
  | JSON.obj kvs => JSON.obj (pruneMembers names sub kvs)
  | j => j

/-- A metadata object without its unmatched members. -/
def ContentMetadata.prune (j : JSON) : JSON :=
  pruneObject ContentMetadata.names (fun _ v => v) j

/-- A location object without its unmatched members. -/
def Location.prune (j : JSON) : JSON :=
  pruneObject Location.names (fun _ v => v) j

/-- A content object without its unmatched members, at every level. -/
def Content.prune (j : JSON) : JSON :=
  pruneObject Content.names
    (fun i v => if i = 6 then ContentMetadata.prune v else if i = 8 then Location.prune v else v) j

/-- An event without its unmatched members, at every level. -/
def Result.prune (j : JSON) : JSON :=
  pruneObject Result.names (fun i v => if i = 6 then Content.prune v else v) j

/-- An array of events, each without its unmatched members. -/
def pruneEvents : JSON → JSON
  | JSON.arr xs => JSON.arr (xs.map Result.prune)
  | j => j

/-- A document without the members whose key matches no field of the struct
they would be decoded into, at every level of the schema. -/
def ReceivedMessage.prune (doc : JSON) : JSON :=
  pruneObject ReceivedMessage.names (fun i v => if i = 0 then pruneEvents v else v) doc

/-! ### A sample document -/

/-- A body with every key of the inbound schema. -/
def sampleBody : String :=
  "\x7b\"result\":[\x7b\"id\":\"e1\",\"from\":\"u2\",\"fromChannel\":1341301815,\"to\":[\"u0\"],\"toChannel\":1441301333,\"eventType\":\"138311609000106303\",\"content\":\x7b\"id\":\"c1\",\"contentType\":7,\"from\":\"uf\",\"createdTime\":1332394961610,\"to\":[\"u0\",\"u1\"],\"toType\":1,\"contentMetadata\":\x7b\"STKPKGID\":\"1\",\"STKID\":\"2\",\"STKVER\":\"100\",\"STKTXT\":\"[smile]\",\"mid\":\"u9\",\"displayName\":\"Taro\"\x7d,\"text\":\"hello\",\"location\":\x7b\"title\":\"Tokyo\",\"address\":\"Shibuya\",\"latitude\":35,\"longitude\":139\x7d\x7d\x7d]\x7d"

/-- The value of `sampleBody`. -/
def sampleDoc : JSON :=
  JSON.obj [("result", JSON.arr [JSON.obj [
    ("id", JSON.str "e1"), ("from", JSON.str "u2"), ("fromChannel", intToJSON 1341301815),
    ("to", JSON.arr [JSON.str "u0"]), ("toChannel", intToJSON 1441301333),
    ("eventType", JSON.str "138311609000106303"),
    ("content", JSON.obj [
      ("id", JSON.str "c1"), ("contentType", intToJSON 7), ("from", JSON.str "uf"),
      ("createdTime", intToJSON 1332394961610),
      ("to", JSON.arr [JSON.str "u0", JSON.str "u1"]), ("toType", intToJSON 1),
      ("contentMetadata", JSON.obj [("STKPKGID", JSON.str "1"), ("STKID", JSON.str "2"),
        ("STKVER", JSON.str "100"), ("STKTXT", JSON.str "[smile]"), ("mid", JSON.str "u9"),
        ("displayName", JSON.str "Taro")]),
      ("text", JSON.str "hello"),
      ("location", JSON.obj [("title", JSON.str "Tokyo"), ("address", JSON.str "Shibuya"),
        ("latitude", intToJSON 35), ("longitude", intToJSON 139)])])]])]

/-! ## Facts about the model used by several results -/

/-- The request `NewRequest` builds for the endpoint of `SendMessage`. -/
theorem NewRequest_endpoint (b : String) :
    NewRequest "POST" (baseEndPoint ++ "/v1/events") b =
      Except.ok { Method := "POST",
                  URL := { URL.zero with Scheme := toBytes "https",
                                         Host := toBytes "trialbot-api.line.me",
                                         Path := toBytes "/v1/events" },
                  Header := [],
                  Body := b,
                  ContentLength := b.utf8ByteSize,
                  Host := toBytes "trialbot-api.line.me" } := by
  rfl

theorem NewRequest_eq (b : String) :
    NewRequest "POST" (baseEndPoint ++ "/v1/events") b = Except.ok (endpointRequest b) :=
  NewRequest_endpoint b

/-- The headers after the four `Add` calls on a request without headers. -/
theorem addHeaders_header (api : API) (req : Request) (h : req.Header = []) :
    (addHeaders api req).Header =
      [("Content-Type", ["application/json; charset=UTF-8"]),
       ("X-Line-Channelid", [api.channelID]),
       ("X-Line-Channelsecret", [api.channelSecret]),
       ("X-Line-Trusted-User-With-Acl", [api.mID])] := by
  simp only [addHeaders, h]
  rfl

theorem jsonMarshal_eq (m : SendingMessage) (b : String) (h : jsonMarshal m = Except.ok b) :
    b = render m.toJSON := by
  simp only [jsonMarshal, Except.ok.injEq] at h
  exact h.symm

/-- The body of `SendMessage` after the size guard, in one equation. -/
theorem SendMessage_sends (net : Network) (api : API) (to_ : Option (List String))
    (text : String) (h : (render (envelope to_ text).toJSON).utf8ByteSize ≤ 8192) :
    SendMessage net api to_ text =
      match net (httpClient api)
          (addHeaders api (endpointRequest (render (envelope to_ text).toJSON))) with
      | Except.error e =>
        { api := api, err := some e,
          sent := [(httpClient api,
            addHeaders api (endpointRequest (render (envelope to_ text).toJSON)))] }
      | Except.ok res =>
        match res.Body with
        | Except.error cause =>
          { api := api, err := some (Error.io cause),
            sent := [(httpClient api,
              addHeaders api (endpointRequest (render (envelope to_ text).toJSON)))] }
        | Except.ok body =>
          match unmarshalMap body with
          | Except.error e =>
            { api := api, err := some (Error.json e),
              sent := [(httpClient api,
                addHeaders api (endpointRequest (render (envelope to_ text).toJSON)))] }
          | Except.ok _ =>
            { api := api, err := none,
              sent := [(httpClient api,
                addHeaders api (endpointRequest (render (envelope to_ text).toJSON)))] } := by
  have h1 : ¬ (render (envelope to_ text).toJSON).utf8ByteSize > 8192 := by omega
  simp only [SendMessage, jsonMarshal, NewRequest_eq, h1, if_false]

theorem SendMessage_refuses (net : Network) (api : API) (to_ : Option (List String))
    (text : String) (h : 8192 < (render (envelope to_ text).toJSON).utf8ByteSize) :
    SendMessage net api to_ text =
      { api := api,
        err := some (Error.new "The size of API request is too long (over 8192 bytes)."),
        sent := [] } := by
  have h1 : (render (envelope to_ text).toJSON).utf8ByteSize > 8192 := h
  simp only [SendMessage, jsonMarshal, h1, if_true]

/-- The single call `SendMessage` makes after the size guard. -/
theorem SendMessage_sent (net : Network) (api : API) (to_ : Option (List String))
    (text : String) (h : (render (envelope to_ text).toJSON).utf8ByteSize ≤ 8192) :
    (SendMessage net api to_ text).sent =
      [(httpClient api,
        addHeaders api (endpointRequest (render (envelope to_ text).toJSON)))] := by
  rw [SendMessage_sends net api to_ text h]
  cases net (httpClient api)
      (addHeaders api (endpointRequest (render (envelope to_ text).toJSON))) with
  | error e => rfl
  | ok res =>
    cases hres : res.Body with
    | error cause => simp only [hres]
    | ok body =>
      simp only [hres]
      cases unmarshalMap body <;> rfl

/-! ## Sizes of serialized envelopes -/

theorem utf8ByteSize_append (a b : String) :
    (a ++ b).utf8ByteSize = a.utf8ByteSize + b.utf8ByteSize := by
  cases a with
  | mk x =>
    cases b with
    | mk y =>
      show (String.mk (x ++ y)).utf8ByteSize = _
      simp [String.utf8ByteSize_mk, String.utf8Len_append]

theorem utf8Size_of_ascii (c : Char) (h : c.toNat < 0x80) : c.utf8Size = 1 := by
  have hv : c.val ≤ UInt32.ofNatCore 127 (by decide) := by
    show c.val.toNat ≤ 127
    have : c.val.toNat = c.toNat := rfl
    omega
  unfold Char.utf8Size
  exact if_pos hv

theorem utf8Size_le_escapeChar (c : Char) : c.utf8Size ≤ String.utf8Len (escapeChar c) := by
  have h4 := Char.utf8Size_le_four c
  have hb := Char.utf8Size_pos (Char.ofNat 0x5c)
  have hu := Char.utf8Size_pos 'u'
  have h2 := Char.utf8Size_pos '2'
  have h0 := Char.utf8Size_pos '0'
  unfold escapeChar
  split
  · rw [utf8Size_of_ascii c (by assumption)]
    repeat' split
    all_goals simp only [String.utf8Len_cons, String.utf8Len_nil]
    all_goals first
      | omega
      | (have hc := Char.utf8Size_pos c; omega)
  · split
    · simp only [String.utf8Len_cons, String.utf8Len_nil]
      omega
    · simp [String.utf8Len_cons]

theorem utf8Len_le_flatMap_escapeChar (cs : List Char) :
    String.utf8Len cs ≤ String.utf8Len (cs.flatMap escapeChar) := by
  induction cs with
  | nil => simp
  | cons c cs ih =>
    simp only [List.flatMap_cons, String.utf8Len_cons, String.utf8Len_append]
    have := utf8Size_le_escapeChar c
    omega

theorem utf8ByteSize_le_encodeString (s : String) :
    s.utf8ByteSize ≤ (encodeString s).utf8ByteSize := by
  cases s with
  | mk cs =>
    simp only [encodeString, String.utf8ByteSize_mk, String.utf8Len_cons, String.utf8Len_append]
    have := utf8Len_le_flatMap_escapeChar cs
    omega

/-- The serialized envelope is at least as long as the text it carries. -/
theorem text_size_le_envelope_size (to_ : Option (List String)) (text : String) :
    text.utf8ByteSize ≤ (render (envelope to_ text).toJSON).utf8ByteSize := by
  have := utf8ByteSize_le_encodeString text
  simp only [envelope, SendingMessage.toJSON, Content.toJSON, render, renderMembers,
    utf8ByteSize_append]
  omega

theorem utf8ByteSize_replicate (n : Nat) :
    (String.mk (List.replicate n 'a')).utf8ByteSize = n := by
  induction n with
  | zero => rfl
  | succ n ih =>
    simp only [String.utf8ByteSize_mk, List.replicate_succ, String.utf8Len_cons] at ih ⊢
    rw [ih]
    rfl

/-! ## Reading back a string `Marshal` wrote -/

theorem hexVal_hexDigit (k : Nat) (h : k < 16) : hexVal (hexDigit k) = some k := by
  have hall : ∀ k : Fin 16, hexVal (hexDigit k.1) = some k.1 := by decide
  exact hall ⟨k, h⟩

theorem char_eq_of_toNat (c : Char) (n : Nat) (h : c.toNat = n) : Char.ofNat n = c := by
  rw [← h]
  exact Char.ofNat_toNat c

theorem scanStringAux_plain (c : Char) (rest : List Char) (fuel : Nat)
    (h1 : ¬ c.toNat = 0x22) (h2 : ¬ c.toNat = 0x5c) (h3 : ¬ c.toNat < 0x20) :
    scanStringAux (fuel + 1) (c :: rest) =
      (scanStringAux fuel rest).map (fun r => (c :: r.1, r.2)) := by
  simp only [scanStringAux, h1, h2, h3, if_false]

theorem scanStringAux_letter (e ch : Char) (rest : List Char) (fuel : Nat)
    (h1 : ¬ e.toNat = 0x75) (h2 : unescapeLetter e = some ch) :
    scanStringAux (fuel + 1) (Char.ofNat 0x5c :: e :: rest) =
      (scanStringAux fuel rest).map (fun r => (ch :: r.1, r.2)) := by
  simp [scanStringAux, h1, h2]

theorem scanStringAux_u (h1 h2 h3 h4 : Char) (rr : Nat) (rest : List Char) (fuel : Nat)
    (hg : getu4 h1 h2 h3 h4 = some rr) (hs : ¬ (0xd800 ≤ rr ∧ rr < 0xe000)) :
    scanStringAux (fuel + 1) (Char.ofNat 0x5c :: 'u' :: h1 :: h2 :: h3 :: h4 :: rest) =
      (scanStringAux fuel rest).map (fun r => (Char.ofNat rr :: r.1, r.2)) := by
  simp [scanStringAux, hg, hs]

/-- One character written by `Marshal` is read back as that character. -/
theorem scanStringAux_escapeChar (c : Char) (rest : List Char) (fuel : Nat) :
    scanStringAux (fuel + 1) (escapeChar c ++ rest) =
      (scanStringAux fuel rest).map (fun r => (c :: r.1, r.2)) := by
  by_cases hascii : c.toNat < 0x80
  · by_cases hsafe : htmlSafe c.toNat = true
    · have he : escapeChar c = [c] := by simp only [escapeChar, hascii, hsafe, if_true]
      rw [he]
      simp only [htmlSafe, Bool.and_eq_true, decide_eq_true_eq, Bool.not_eq_true',
        Bool.or_eq_false_iff, beq_eq_false_iff_ne, ne_eq] at hsafe
      exact scanStringAux_plain c rest fuel hsafe.2.1.1.1.1 hsafe.2.2 (by omega)
    · by_cases hq : c.toNat = 0x22
      · have hc := char_eq_of_toNat c _ hq
        subst hc
        exact scanStringAux_letter _ _ rest fuel (by decide) rfl
      · by_cases hbs : c.toNat = 0x5c
        · have hc := char_eq_of_toNat c _ hbs
          subst hc
          exact scanStringAux_letter _ _ rest fuel (by decide) rfl
        · by_cases h8 : c.toNat = 0x08
          · have hc := char_eq_of_toNat c _ h8
            subst hc
            exact scanStringAux_letter _ _ rest fuel (by decide) rfl
          · by_cases hff : c.toNat = 0x0c
            · have hc := char_eq_of_toNat c _ hff
              subst hc
              exact scanStringAux_letter _ _ rest fuel (by decide) rfl
            · by_cases hn : c.toNat = 0x0a
              · have hc := char_eq_of_toNat c _ hn
                subst hc
                exact scanStringAux_letter _ _ rest fuel (by decide) rfl
              · by_cases hr : c.toNat = 0x0d
                · have hc := char_eq_of_toNat c _ hr
                  subst hc
                  exact scanStringAux_letter _ _ rest fuel (by decide) rfl
                · by_cases ht : c.toNat = 0x09
                  · have hc := char_eq_of_toNat c _ ht
                    subst hc
                    exact scanStringAux_letter _ _ rest fuel (by decide) rfl
                  · have he : escapeChar c =
                        [Char.ofNat 0x5c, 'u', '0', '0', hexDigit (c.toNat / 16),
                          hexDigit (c.toNat % 16)] := by
                      simp [escapeChar, hascii, hsafe, hq, hbs, h8, hff, hn, hr, ht]
                    rw [he]
                    have hg : getu4 '0' '0' (hexDigit (c.toNat / 16))
                        (hexDigit (c.toNat % 16)) = some c.toNat := by
                      have h0 : hexVal '0' = some 0 := by decide
                      simp only [getu4, h0, hexVal_hexDigit (c.toNat / 16) (by omega),
                        hexVal_hexDigit (c.toNat % 16) (by omega), Option.some.injEq]
                      omega
                    have hstep := scanStringAux_u '0' '0' (hexDigit (c.toNat / 16))
                      (hexDigit (c.toNat % 16)) c.toNat rest fuel hg (by omega)
                    rw [Char.ofNat_toNat] at hstep
                    exact hstep
  · by_cases hls : c.toNat = 0x2028 ∨ c.toNat = 0x2029
    · have he : escapeChar c =
          [Char.ofNat 0x5c, 'u', '2', '0', '2', hexDigit (c.toNat % 16)] := by
        simp only [escapeChar, hascii, hls, if_true, if_false]
      rw [he]
      have hg : getu4 '2' '0' '2' (hexDigit (c.toNat % 16)) = some c.toNat := by
        have h0 : hexVal '0' = some 0 := by decide
        have h2 : hexVal '2' = some 2 := by decide
        simp only [getu4, h0, h2, hexVal_hexDigit (c.toNat % 16) (by omega), Option.some.injEq]
        omega
      have hstep := scanStringAux_u '2' '0' '2' (hexDigit (c.toNat % 16)) c.toNat rest fuel hg
        (by omega)
      rw [Char.ofNat_toNat] at hstep
      exact hstep
    · have he : escapeChar c = [c] := by
        simp only [escapeChar, hascii, hls, if_false]
      rw [he]
      exact scanStringAux_plain c rest fuel (by omega) (by omega) (by omega)

theorem length_le_flatMap_escapeChar (cs : List Char) :
    cs.length ≤ (cs.flatMap escapeChar).length := by
  induction cs with
  | nil => simp
  | cons c cs ih =>
    have hc : 1 ≤ (escapeChar c).length := by
      unfold escapeChar
      repeat' split
      all_goals simp
    simp only [List.flatMap_cons, List.length_append, List.length_cons]
    omega

/-- The characters `Marshal` writes for a string, up to the closing quote, are
read back as the string. -/
theorem scanStringAux_flatMap_escapeChar (cs : List Char) :
    ∀ (rest : List Char) (fuel : Nat), cs.length < fuel →
      scanStringAux fuel (cs.flatMap escapeChar ++ Char.ofNat 0x22 :: rest) = some (cs, rest) := by
  induction cs with
  | nil =>
    intro rest fuel h
    obtain ⟨f, rfl⟩ : ∃ f, fuel = f + 1 := ⟨fuel - 1, by simp at h; omega⟩
    simp [scanStringAux]
  | cons c cs ih =>
    intro rest fuel h
    obtain ⟨f, rfl⟩ : ∃ f, fuel = f + 1 := ⟨fuel - 1, by simp at h; omega⟩
    simp only [List.length_cons] at h
    rw [List.flatMap_cons, List.append_assoc, scanStringAux_escapeChar, ih rest f (by omega)]
    rfl

/-- The string literal `Marshal` writes for a string is read back by the
scanner as that string: the text arrives unchanged. -/
theorem parseJSON_encodeString (s : String) : parseJSON (encodeString s) = some (JSON.str s) := by
  cases s with
  | mk cs =>
    have hlen := length_le_flatMap_escapeChar cs
    have hscan : scanString (cs.flatMap escapeChar ++ [Char.ofNat 0x22]) = some (cs, []) := by
      unfold scanString
      exact scanStringAux_flatMap_escapeChar cs [] _
        (by simp only [List.length_append, List.length_cons, List.length_nil]; omega)
    simp only [parseJSON, encodeString, String.length]
    simp [scanValue, skipSpace, isSpace, hscan]

/-! ## The calls leave the client as it is -/

theorem SendMessage_api (net : Network) (api : API) (to_ : Option (List String))
    (text : String) : (SendMessage net api to_ text).api = api := by
  unfold SendMessage
  repeat' split
  all_goals rfl

theorem DecodeMessage_api (api : API) (body : Except String String) :
    (DecodeMessage api body).1 = api := by
  unfold DecodeMessage
  repeat' split
  all_goals rfl

theorem runCalls_snoc (api : API) (calls : List Call) (c : Call) :
    runCalls api (calls ++ [c]) = Call.apply (runCalls api calls) c := by
  simp [runCalls, List.foldl_append]

/-- The proxy and the credentials after a sequence of calls on a new client. -/
theorem runCalls_New (channelID channelSecret mid : String) (calls : List Call) :
    (runCalls (New channelID channelSecret mid) calls).proxyURL =
        (match lastSetProxy calls with
         | none => none
         | some s => (urlParse s).toOption) ∧
      (runCalls (New channelID channelSecret mid) calls).channelID = channelID ∧
      (runCalls (New channelID channelSecret mid) calls).channelSecret = channelSecret ∧
      (runCalls (New channelID channelSecret mid) calls).mID = mid := by
  induction calls using List.reverseRecOn with
  | nil => exact ⟨rfl, rfl, rfl, rfl⟩
  | append_singleton calls c ih =>
    rw [runCalls_snoc]
    have hl : lastSetProxy (calls ++ [c]) =
        (match c with
         | Call.setProxy proxyURL => some proxyURL
         | _ => lastSetProxy calls) := by
      simp [lastSetProxy, List.foldl_append]
    rw [hl]
    cases c with
    | setProxy s =>
      simp only [Call.apply, SetProxy]
      cases urlParse s with
      | error e => exact ⟨rfl, ih.2.1, ih.2.2.1, ih.2.2.2⟩
      | ok u => exact ⟨rfl, ih.2.1, ih.2.2.1, ih.2.2.2⟩
    | decodeMessage body =>
      simp only [Call.apply, DecodeMessage_api]
      exact ih
    | sendMessage net to_ text =>
      simp only [Call.apply, SendMessage_api]
      exact ih

/-! ## Decoding a document that matches the schema -/

theorem lookup_eq_none_of_not_mem (k : String) (kvs : List (String × JSON))
    (h : k ∉ kvs.map Prod.fst) : kvs.lookup k = none := by
  induction kvs with
  | nil => rfl
  | cons kv kvs ih =>
    obtain ⟨k1, v1⟩ := kv
    simp only [List.map_cons, List.mem_cons, not_or] at h
    have hne : (k == k1) = false := by simpa using h.1
    simp only [List.lookup, hne]
    exact ih h.2

theorem decodeInt_of_isIntValue (old : Int) (v : JSON) (h : isIntValue v = true) :
    ∃ n : Number, v = JSON.num n ∧ decodeInt old v = Except.ok n.toInt := by
  cases v with
  | num n =>
    refine ⟨n, rfl, ?_⟩
    simp only [isIntValue, Bool.and_eq_true, decide_eq_true_eq] at h
    simp only [decodeInt, h.1.1, h.1.2, h.2, and_self, if_true]
  | _ => simp [isIntValue] at h

theorem decodeString_of_isStringValue (old : String) (v : JSON) (h : isStringValue v = true) :
    ∃ s : String, v = JSON.str s ∧ decodeString old v = Except.ok s := by
  cases v with
  | str s => exact ⟨s, rfl, rfl⟩
  | _ => simp [isStringValue] at h

theorem Location_decodeMembers_eq (kvs : List (String × JSON)) :
    ∀ l : Location, (kvs.map Prod.fst).Nodup →
      kvs.all (fun kv => locationMemberType kv.1 kv.2) = true →
      decodeMembers Location.names Location.set l kvs = Except.ok (l.merge kvs) := by
  induction kvs with
  | nil => intro l _ _; rfl
  | cons kv kvs ih =>
    obtain ⟨k, v⟩ := kv
    intro l hnd hall
    simp only [List.map_cons, List.nodup_cons] at hnd
    simp only [List.all_cons, Bool.and_eq_true] at hall
    obtain ⟨hk, hrest⟩ := hall
    have hnone := lookup_eq_none_of_not_mem k kvs hnd.1
    unfold locationMemberType at hk
    split at hk
    · rename_i hkey
      obtain ⟨s, rfl, hs⟩ := decodeString_of_isStringValue "" v hk
      rcases hkey with rfl | rfl
      · have hf : findField Location.names "title" = some 0 := by decide
        simp only [decodeMembers, hf, Location.set, decodeString, Except.map]
        rw [ih _ hnd.2 hrest]
        simp [Location.merge, readString, readInt, List.lookup, hnone]
      · have hf : findField Location.names "address" = some 1 := by decide
        simp only [decodeMembers, hf, Location.set, decodeString, Except.map]
        rw [ih _ hnd.2 hrest]
        simp [Location.merge, readString, readInt, List.lookup, hnone]
    · split at hk
      · rename_i hkey
        obtain ⟨n, rfl, hn⟩ := decodeInt_of_isIntValue 0 v hk
        have hn1 : ∀ old, decodeInt old (JSON.num n) = Except.ok n.toInt := by
          intro old
          obtain ⟨n1, h1, h2⟩ := decodeInt_of_isIntValue old _ hk
          cases h1
          exact h2
        rcases hkey with rfl | rfl
        · have hf : findField Location.names "latitude" = some 2 := by decide
          simp only [decodeMembers, hf, Location.set, hn1, Except.map]
          rw [ih _ hnd.2 hrest]
          simp [Location.merge, readString, readInt, List.lookup, hnone]
        · have hf : findField Location.names "longitude" = some 3 := by decide
          simp only [decodeMembers, hf, Location.set, hn1, Except.map]
          rw [ih _ hnd.2 hrest]
          simp [Location.merge, readString, readInt, List.lookup, hnone]
      · simp at hk

theorem decodeMembers_cons_of {S : Type} (names : List String)
    (set : Nat → S → JSON → Except JSONError S) (s s1 : S) (k : String) (v : JSON)
    (kvs : List (String × JSON)) (i : Nat) (hf : findField names k = some i)
    (hs : set i s v = Except.ok s1) :
    decodeMembers names set s ((k, v) :: kvs) = decodeMembers names set s1 kvs := by
  simp only [decodeMembers, hf, hs]

theorem decodeInt_of_isIntValue_num (old : Int) (n : Number) (h : isIntValue (JSON.num n) = true) :
    decodeInt old (JSON.num n) = Except.ok n.toInt := by
  obtain ⟨n1, h1, h2⟩ := decodeInt_of_isIntValue old _ h
  cases h1
  exact h2

theorem decodeElems_strings (xs : List JSON) (h : xs.all isStringValue = true) :
    ∀ old : List String, decodeElems decodeString "" old xs = Except.ok (xs.map stringOf) := by
  induction xs with
  | nil => intro old; rfl
  | cons x xs ih =>
    intro old
    simp only [List.all_cons, Bool.and_eq_true] at h
    obtain ⟨s, rfl, hs⟩ := decodeString_of_isStringValue (old.headD "") x h.1
    simp only [decodeElems, hs, ih h.2, List.map_cons, stringOf]

theorem decodeStrings_of_isStringArray (old : Option (List String)) (v : JSON)
    (h : isStringArray v = true) :
    ∃ xs : List JSON, v = JSON.arr xs ∧
      decodeStrings old v = Except.ok (some (xs.map stringOf)) := by
  cases v with
  | arr xs =>
    refine ⟨xs, rfl, ?_⟩
    simp only [isStringArray] at h
    simp only [decodeStrings, decodeSlice, decodeElems_strings xs h, Except.map]
  | _ => simp [isStringArray] at h

theorem matchesObject_obj (typ : String → JSON → Bool) (v : JSON)
    (h : matchesObject typ v = true) :
    ∃ kvs : List (String × JSON), v = JSON.obj kvs ∧ (kvs.map Prod.fst).Nodup ∧
      kvs.all (fun kv => typ kv.1 kv.2) = true := by
  cases v with
  | obj kvs =>
    simp only [matchesObject, Bool.and_eq_true, decide_eq_true_eq] at h
    exact ⟨kvs, rfl, h.1, h.2⟩
  | _ => simp [matchesObject] at h

theorem ContentMetadata_decodeMembers_eq (kvs : List (String × JSON)) :
    ∀ m : ContentMetadata, (kvs.map Prod.fst).Nodup →
      kvs.all (fun kv => metadataMemberType kv.1 kv.2) = true →
      decodeMembers ContentMetadata.names ContentMetadata.set m kvs = Except.ok (m.merge kvs) := by
  induction kvs with
  | nil => intro m _ _; rfl
  | cons kv kvs ih =>
    obtain ⟨k, v⟩ := kv
    intro m hnd hall
    simp only [List.map_cons, List.nodup_cons] at hnd
    simp only [List.all_cons, Bool.and_eq_true] at hall
    obtain ⟨hk, hrest⟩ := hall
    have hnone := lookup_eq_none_of_not_mem k kvs hnd.1
    unfold metadataMemberType at hk
    split at hk
    · rename_i hkey
      obtain ⟨s, rfl, hs⟩ := decodeString_of_isStringValue "" v hk
      rcases hkey with rfl | rfl | rfl | rfl | rfl | rfl
      · rw [decodeMembers_cons_of _ _ m { m with STKPKGID := s } _ _ _ 0 (by decide) rfl,
          ih _ hnd.2 hrest]
        simp [ContentMetadata.merge, readString, List.lookup, hnone]
      · rw [decodeMembers_cons_of _ _ m { m with STKID := s } _ _ _ 1 (by decide) rfl,
          ih _ hnd.2 hrest]
        simp [ContentMetadata.merge, readString, List.lookup, hnone]
      · rw [decodeMembers_cons_of _ _ m { m with STKVER := s } _ _ _ 2 (by decide) rfl,
          ih _ hnd.2 hrest]
        simp [ContentMetadata.merge, readString, List.lookup, hnone]
      · rw [decodeMembers_cons_of _ _ m { m with STKTXT := s } _ _ _ 3 (by decide) rfl,
          ih _ hnd.2 hrest]
        simp [ContentMetadata.merge, readString, List.lookup, hnone]
      · rw [decodeMembers_cons_of _ _ m { m with Mid := s } _ _ _ 4 (by decide) rfl,
          ih _ hnd.2 hrest]
        simp [ContentMetadata.merge, readString, List.lookup, hnone]
      · rw [decodeMembers_cons_of _ _ m { m with DisplayName := s } _ _ _ 5 (by decide) rfl,
          ih _ hnd.2 hrest]
        simp [ContentMetadata.merge, readString, List.lookup, hnone]
    · simp at hk

theorem Content_decodeMembers_eq (kvs : List (String × JSON)) :
    ∀ c : Content, (kvs.map Prod.fst).Nodup →
      kvs.all (fun kv => contentMemberType kv.1 kv.2) = true →
      decodeMembers Content.names Content.set c kvs = Except.ok (c.merge kvs) := by
  induction kvs with
  | nil => intro c _ _; rfl
  | cons kv kvs ih =>
    obtain ⟨k, v⟩ := kv
    intro c hnd hall
    simp only [List.map_cons, List.nodup_cons] at hnd
    simp only [List.all_cons, Bool.and_eq_true] at hall
    obtain ⟨hk, hrest⟩ := hall
    have hnone := lookup_eq_none_of_not_mem k kvs hnd.1
    unfold contentMemberType at hk
    split at hk
    · rename_i hkey
      obtain ⟨s, rfl, hs⟩ := decodeString_of_isStringValue "" v hk
      rcases hkey with rfl | rfl | rfl
      · rw [decodeMembers_cons_of _ _ c { c with ID := s } _ _ _ 0 (by decide) rfl,
          ih _ hnd.2 hrest]
        simp [Content.merge, readString, readInt, readStrings, List.lookup, hnone]
      · rw [decodeMembers_cons_of _ _ c { c with From := s } _ _ _ 2 (by decide) rfl,
          ih _ hnd.2 hrest]
        simp [Content.merge, readString, readInt, readStrings, List.lookup, hnone]
      · rw [decodeMembers_cons_of _ _ c { c with Text := s } _ _ _ 7 (by decide) rfl,
          ih _ hnd.2 hrest]
        simp [Content.merge, readString, readInt, readStrings, List.lookup, hnone]
    · split at hk
      · rename_i hkey
        obtain ⟨n, rfl, hn⟩ := decodeInt_of_isIntValue 0 v hk
        have hn1 := fun old => decodeInt_of_isIntValue_num old n hk
        rcases hkey with rfl | rfl | rfl
        · rw [decodeMembers_cons_of _ _ c { c with ContentType := n.toInt } _ _ _ 1 (by decide)
            (by simp only [Content.set, hn1, Except.map]), ih _ hnd.2 hrest]
          simp [Content.merge, readString, readInt, readStrings, List.lookup, hnone]
        · rw [decodeMembers_cons_of _ _ c { c with CreatedTime := n.toInt } _ _ _ 3 (by decide)
            (by simp only [Content.set, hn1, Except.map]), ih _ hnd.2 hrest]
          simp [Content.merge, readString, readInt, readStrings, List.lookup, hnone]
        · rw [decodeMembers_cons_of _ _ c { c with ToType := n.toInt } _ _ _ 5 (by decide)
            (by simp only [Content.set, hn1, Except.map]), ih _ hnd.2 hrest]
          simp [Content.merge, readString, readInt, readStrings, List.lookup, hnone]
      · split at hk
        · rename_i hkey
          subst hkey
          obtain ⟨xs, rfl, hxs⟩ := decodeStrings_of_isStringArray c.To v hk
          rw [decodeMembers_cons_of _ _ c { c with To := some (xs.map stringOf) } _ _ _ 4
            (by decide) (by simp only [Content.set, hxs, Except.map]), ih _ hnd.2 hrest]
          simp [Content.merge, readString, readInt, readStrings, List.lookup, hnone]
        · split at hk
          · rename_i hkey
            subst hkey
            obtain ⟨m, rfl, hm1, hm2⟩ := matchesObject_obj _ v hk
            rw [decodeMembers_cons_of _ _ c
              { c with ConentMetadata := c.ConentMetadata.merge m } _ _ _ 6 (by decide)
              (by simp only [Content.set, ContentMetadata.decode, decodeStruct,
                    ContentMetadata_decodeMembers_eq m _ hm1 hm2, Except.map]),
              ih _ hnd.2 hrest]
            simp [Content.merge, readString, readInt, readStrings, List.lookup, hnone]
          · split at hk
            · rename_i hkey
              subst hkey
              obtain ⟨m, rfl, hm1, hm2⟩ := matchesObject_obj _ v hk
              rw [decodeMembers_cons_of _ _ c
                { c with Location := c.Location.merge m } _ _ _ 8 (by decide)
                (by simp only [Content.set, Location.decode, decodeStruct,
                      Location_decodeMembers_eq m _ hm1 hm2, Except.map]),
                ih _ hnd.2 hrest]
              simp [Content.merge, readString, readInt, readStrings, List.lookup, hnone]
            · simp at hk

theorem Result_decodeMembers_eq (kvs : List (String × JSON)) :
    ∀ r : Result, (kvs.map Prod.fst).Nodup →
      kvs.all (fun kv => eventMemberType kv.1 kv.2) = true →
      decodeMembers Result.names Result.set r kvs = Except.ok (r.merge kvs) := by
  induction kvs with
  | nil => intro r _ _; rfl
  | cons kv kvs ih =>
    obtain ⟨k, v⟩ := kv
    intro r hnd hall
    simp only [List.map_cons, List.nodup_cons] at hnd
    simp only [List.all_cons, Bool.and_eq_true] at hall
    obtain ⟨hk, hrest⟩ := hall
    have hnone := lookup_eq_none_of_not_mem k kvs hnd.1
    unfold eventMemberType at hk
    split at hk
    · rename_i hkey
      obtain ⟨s, rfl, hs⟩ := decodeString_of_isStringValue "" v hk
      rcases hkey with rfl | rfl | rfl
      · rw [decodeMembers_cons_of _ _ r { r with ID := s } _ _ _ 0 (by decide) rfl,
          ih _ hnd.2 hrest]
        simp [Result.merge, readString, readInt, readStrings, List.lookup, hnone]
      · rw [decodeMembers_cons_of _ _ r { r with From := s } _ _ _ 1 (by decide) rfl,
          ih _ hnd.2 hrest]
        simp [Result.merge, readString, readInt, readStrings, List.lookup, hnone]
      · rw [decodeMembers_cons_of _ _ r { r with EventType := s } _ _ _ 5 (by decide) rfl,
          ih _ hnd.2 hrest]
        simp [Result.merge, readString, readInt, readStrings, List.lookup, hnone]
    · split at hk
      · rename_i hkey
        obtain ⟨n, rfl, hn⟩ := decodeInt_of_isIntValue 0 v hk
        have hn1 := fun old => decodeInt_of_isIntValue_num old n hk
        rcases hkey with rfl | rfl
        · rw [decodeMembers_cons_of _ _ r { r with FromChannel := n.toInt } _ _ _ 2 (by decide)
            (by simp only [Result.set, hn1, Except.map]), ih _ hnd.2 hrest]
          simp [Result.merge, readString, readInt, readStrings, List.lookup, hnone]
        · rw [decodeMembers_cons_of _ _ r { r with ToChannel := n.toInt } _ _ _ 4 (by decide)
            (by simp only [Result.set, hn1, Except.map]), ih _ hnd.2 hrest]
          simp [Result.merge, readString, readInt, readStrings, List.lookup, hnone]
      · split at hk
        · rename_i hkey
          subst hkey
          obtain ⟨xs, rfl, hxs⟩ := decodeStrings_of_isStringArray r.To v hk
          rw [decodeMembers_cons_of _ _ r { r with To := some (xs.map stringOf) } _ _ _ 3
            (by decide) (by simp only [Result.set, hxs, Except.map]), ih _ hnd.2 hrest]
          simp [Result.merge, readString, readInt, readStrings, List.lookup, hnone]
        · split at hk
          · rename_i hkey
            subst hkey
            obtain ⟨m, rfl, hm1, hm2⟩ := matchesObject_obj _ v hk
            rw [decodeMembers_cons_of _ _ r
              { r with Content := r.Content.merge m } _ _ _ 6 (by decide)
              (by simp only [Result.set, Content.decode, decodeStruct,
                    Content_decodeMembers_eq m _ hm1 hm2, Except.map]),
              ih _ hnd.2 hrest]
            simp [Result.merge, readString, readInt, readStrings, List.lookup, hnone]
          · simp at hk

theorem decodeElems_events (xs : List JSON) (h : xs.all (matchesObject eventMemberType) = true) :
    decodeElems Result.decode Result.zero [] xs = Except.ok (xs.map schemaEvent) := by
  induction xs with
  | nil => rfl
  | cons x xs ih =>
    simp only [List.all_cons, Bool.and_eq_true] at h
    obtain ⟨m, rfl, hm1, hm2⟩ := matchesObject_obj _ x h.1
    have hx : Result.decode Result.zero (JSON.obj m) = Except.ok (Result.zero.merge m) := by
      simp only [Result.decode, decodeStruct, Result_decodeMembers_eq m _ hm1 hm2]
    simp only [decodeElems, List.headD, List.tail, hx, ih h.2, List.map_cons, schemaEvent]

theorem ReceivedMessage_decode_eq (doc : JSON) (h : matchesInboundSchema doc = true) :
    ReceivedMessage.zero.decode doc = Except.ok (schemaBatch doc) := by
  obtain ⟨kvs, rfl, hnd, hall⟩ := matchesObject_obj _ doc h
  cases kvs with
  | nil => rfl
  | cons kv kvs =>
    obtain ⟨k, v⟩ := kv
    simp only [List.all_cons, Bool.and_eq_true] at hall
    simp only [List.map_cons, List.nodup_cons] at hnd
    obtain ⟨hk, hrest⟩ := hall
    unfold batchMemberType at hk
    split at hk
    · rename_i hkey
      subst hkey
      cases kvs with
      | nil =>
        cases v with
        | arr xs =>
          simp only at hk
          simp only [ReceivedMessage.decode, decodeStruct]
          rw [decodeMembers_cons_of _ _ ReceivedMessage.zero
            { Results := some (xs.map schemaEvent) } _ _ _ 0 (by decide)
            (by simp only [ReceivedMessage.set, decodeSlice, ReceivedMessage.zero,
                  Option.getD, decodeElems_events xs hk, Except.map])]
          simp [decodeMembers, schemaBatch, List.lookup]
        | _ => simp at hk
      | cons kv2 kvs =>
        obtain ⟨k2, v2⟩ := kv2
        simp only [List.all_cons, Bool.and_eq_true] at hrest
        have hk2 := hrest.1
        unfold batchMemberType at hk2
        split at hk2
        · rename_i hkey2
          subst hkey2
          simp at hnd
        · simp at hk2
    · simp at hk

/-! ## Fields that no key matches -/

theorem decodeMembers_frame {S A : Type} (names : List String)
    (set : Nat → S → JSON → Except JSONError S) (proj : S → A) (i : Nat)
    (hframe : ∀ (j : Nat) (s s1 : S) (v : JSON), j ≠ i → set j s v = Except.ok s1 →
      proj s1 = proj s) :
    ∀ (kvs : List (String × JSON)) (s r : S),
      decodeMembers names set s kvs = Except.ok r → absent names kvs i → proj r = proj s := by
  intro kvs
  induction kvs with
  | nil =>
    intro s r h _
    simp only [decodeMembers, Except.ok.injEq] at h
    rw [h]
  | cons kv kvs ih =>
    obtain ⟨k, v⟩ := kv
    intro s r h habs
    have hk := habs (k, v) (List.mem_cons_self _ _)
    have hrest : absent names kvs i := fun kv hkv => habs kv (List.mem_cons_of_mem _ hkv)
    simp only [decodeMembers] at h
    cases hf : findField names k with
    | none =>
      simp only [hf] at h
      exact ih s r h hrest
    | some j =>
      simp only [hf] at h
      cases hs : set j s v with
      | error e => simp [hs] at h
      | ok s1 =>
        simp only [hs] at h
        have hj : j ≠ i := by
          intro hji
          apply hk
          rw [hf, hji]
        rw [ih s1 r h hrest, hframe j s s1 v hj hs]

theorem map_eq_ok {A B : Type} (x : Except JSONError A) (f : A → B) (b : B)
    (h : x.map f = Except.ok b) : ∃ a, x = Except.ok a ∧ f a = b := by
  cases x with
  | error e => cases h
  | ok a =>
    simp only [Except.map, Except.ok.injEq] at h
    exact ⟨a, rfl, h⟩

theorem Location_set_frame (j : Nat) (s s1 : Location) (v : JSON)
    (h : Location.set j s v = Except.ok s1) :
    (j ≠ 0 → s1.Title = s.Title) ∧ (j ≠ 1 → s1.Address = s.Address) ∧
    (j ≠ 2 → s1.Latitude = s.Latitude) ∧ (j ≠ 3 → s1.Longitude = s.Longitude) := by
  rcases j with _ | _ | _ | _ | j <;> simp only [Location.set] at h <;>
    first
      | (obtain ⟨a, _, rfl⟩ := map_eq_ok _ _ _ h; simp)
      | (simp only [Except.ok.injEq] at h; subst h; simp)

theorem ContentMetadata_set_frame (j : Nat) (s s1 : ContentMetadata) (v : JSON)
    (h : ContentMetadata.set j s v = Except.ok s1) :
    (j ≠ 0 → s1.STKPKGID = s.STKPKGID) ∧ (j ≠ 1 → s1.STKID = s.STKID) ∧
    (j ≠ 2 → s1.STKVER = s.STKVER) ∧ (j ≠ 3 → s1.STKTXT = s.STKTXT) ∧
    (j ≠ 4 → s1.Mid = s.Mid) ∧ (j ≠ 5 → s1.DisplayName = s.DisplayName) := by
  rcases j with _ | _ | _ | _ | _ | _ | j <;> simp only [ContentMetadata.set] at h <;>
    first
      | (obtain ⟨a, _, rfl⟩ := map_eq_ok _ _ _ h; simp)
      | (simp only [Except.ok.injEq] at h; subst h; simp)

theorem Content_set_frame (j : Nat) (s s1 : Content) (v : JSON)
    (h : Content.set j s v = Except.ok s1) :
    (j ≠ 0 → s1.ID = s.ID) ∧ (j ≠ 1 → s1.ContentType = s.ContentType) ∧
    (j ≠ 2 → s1.From = s.From) ∧ (j ≠ 3 → s1.CreatedTime = s.CreatedTime) ∧
    (j ≠ 4 → s1.To = s.To) ∧ (j ≠ 5 → s1.ToType = s.ToType) ∧
    (j ≠ 6 → s1.ConentMetadata = s.ConentMetadata) ∧ (j ≠ 7 → s1.Text = s.Text) ∧
    (j ≠ 8 → s1.Location = s.Location) := by
  rcases j with _ | _ | _ | _ | _ | _ | _ | _ | _ | j <;> simp only [Content.set] at h <;>
    first
      | (obtain ⟨a, _, rfl⟩ := map_eq_ok _ _ _ h; simp)
      | (simp only [Except.ok.injEq] at h; subst h; simp)

theorem Result_set_frame (j : Nat) (s s1 : Result) (v : JSON)
    (h : Result.set j s v = Except.ok s1) :
    (j ≠ 0 → s1.ID = s.ID) ∧ (j ≠ 1 → s1.From = s.From) ∧
    (j ≠ 2 → s1.FromChannel = s.FromChannel) ∧ (j ≠ 3 → s1.To = s.To) ∧
    (j ≠ 4 → s1.ToChannel = s.ToChannel) ∧ (j ≠ 5 → s1.EventType = s.EventType) ∧
    (j ≠ 6 → s1.Content = s.Content) := by
  rcases j with _ | _ | _ | _ | _ | _ | _ | j <;> simp only [Result.set] at h <;>
    first
      | (obtain ⟨a, _, rfl⟩ := map_eq_ok _ _ _ h; simp)
      | (simp only [Except.ok.injEq] at h; subst h; simp)

theorem ReceivedMessage_set_frame (j : Nat) (s s1 : ReceivedMessage) (v : JSON)
    (h : ReceivedMessage.set j s v = Except.ok s1) :
    j ≠ 0 → s1.Results = s.Results := by
  rcases j with _ | j <;> simp only [ReceivedMessage.set] at h <;>
    first
      | (obtain ⟨a, _, rfl⟩ := map_eq_ok _ _ _ h; simp)
      | (simp only [Except.ok.injEq] at h; subst h; simp)

theorem Location_decode_zeroWhereAbsent (kvs : List (String × JSON)) (l : Location)
    (h : Location.zero.decode (JSON.obj kvs) = Except.ok l) : Location.zeroWhereAbsent kvs l := by
  simp only [Location.decode, decodeStruct] at h
  refine ⟨?_, ?_, ?_, ?_⟩ <;> intro ha
  · exact decodeMembers_frame _ _ (fun s => s.Title) 0
      (fun j s s1 v hj hs => (Location_set_frame j s s1 v hs).1 hj) kvs _ l h ha
  · exact decodeMembers_frame _ _ (fun s => s.Address) 1
      (fun j s s1 v hj hs => (Location_set_frame j s s1 v hs).2.1 hj) kvs _ l h ha
  · exact decodeMembers_frame _ _ (fun s => s.Latitude) 2
      (fun j s s1 v hj hs => (Location_set_frame j s s1 v hs).2.2.1 hj) kvs _ l h ha
  · exact decodeMembers_frame _ _ (fun s => s.Longitude) 3
      (fun j s s1 v hj hs => (Location_set_frame j s s1 v hs).2.2.2 hj) kvs _ l h ha

theorem ContentMetadata_decode_zeroWhereAbsent (kvs : List (String × JSON))
    (m : ContentMetadata) (h : ContentMetadata.zero.decode (JSON.obj kvs) = Except.ok m) :
    ContentMetadata.zeroWhereAbsent kvs m := by
  simp only [ContentMetadata.decode, decodeStruct] at h
  refine ⟨?_, ?_, ?_, ?_, ?_, ?_⟩ <;> intro ha
  · exact decodeMembers_frame _ _ (fun s => s.STKPKGID) 0
      (fun j s s1 v hj hs => (ContentMetadata_set_frame j s s1 v hs).1 hj) kvs _ m h ha
  · exact decodeMembers_frame _ _ (fun s => s.STKID) 1
      (fun j s s1 v hj hs => (ContentMetadata_set_frame j s s1 v hs).2.1 hj) kvs _ m h ha
  · exact decodeMembers_frame _ _ (fun s => s.STKVER) 2
      (fun j s s1 v hj hs => (ContentMetadata_set_frame j s s1 v hs).2.2.1 hj) kvs _ m h ha
  · exact decodeMembers_frame _ _ (fun s => s.STKTXT) 3
      (fun j s s1 v hj hs => (ContentMetadata_set_frame j s s1 v hs).2.2.2.1 hj) kvs _ m h ha
  · exact decodeMembers_frame _ _ (fun s => s.Mid) 4
      (fun j s s1 v hj hs => (ContentMetadata_set_frame j s s1 v hs).2.2.2.2.1 hj) kvs _ m h ha
  · exact decodeMembers_frame _ _ (fun s => s.DisplayName) 5
      (fun j s s1 v hj hs => (ContentMetadata_set_frame j s s1 v hs).2.2.2.2.2 hj) kvs _ m h ha

theorem Content_decode_zeroWhereAbsent (kvs : List (String × JSON)) (c : Content)
    (h : Content.zero.decode (JSON.obj kvs) = Except.ok c) : Content.zeroWhereAbsent kvs c := by
  simp only [Content.decode, decodeStruct] at h
  refine ⟨?_, ?_, ?_, ?_, ?_, ?_, ?_, ?_, ?_⟩ <;> intro ha
  · exact decodeMembers_frame _ _ (fun s => s.ID) 0
      (fun j s s1 v hj hs => (Content_set_frame j s s1 v hs).1 hj) kvs _ c h ha
  · exact decodeMembers_frame _ _ (fun s => s.ContentType) 1
      (fun j s s1 v hj hs => (Content_set_frame j s s1 v hs).2.1 hj) kvs _ c h ha
  · exact decodeMembers_frame _ _ (fun s => s.From) 2
      (fun j s s1 v hj hs => (Content_set_frame j s s1 v hs).2.2.1 hj) kvs _ c h ha
  · exact decodeMembers_frame _ _ (fun s => s.CreatedTime) 3
      (fun j s s1 v hj hs => (Content_set_frame j s s1 v hs).2.2.2.1 hj) kvs _ c h ha
  · exact decodeMembers_frame _ _ (fun s => s.To) 4
      (fun j s s1 v hj hs => (Content_set_frame j s s1 v hs).2.2.2.2.1 hj) kvs _ c h ha
  · exact decodeMembers_frame _ _ (fun s => s.ToType) 5
      (fun j s s1 v hj hs => (Content_set_frame j s s1 v hs).2.2.2.2.2.1 hj) kvs _ c h ha
  · exact decodeMembers_frame _ _ (fun s => s.ConentMetadata) 6
      (fun j s s1 v hj hs => (Content_set_frame j s s1 v hs).2.2.2.2.2.2.1 hj) kvs _ c h ha
  · exact decodeMembers_frame _ _ (fun s => s.Text) 7
      (fun j s s1 v hj hs => (Content_set_frame j s s1 v hs).2.2.2.2.2.2.2.1 hj) kvs _ c h ha
  · exact decodeMembers_frame _ _ (fun s => s.Location) 8
      (fun j s s1 v hj hs => (Content_set_frame j s s1 v hs).2.2.2.2.2.2.2.2 hj) kvs _ c h ha

theorem Result_decode_zeroWhereAbsent (kvs : List (String × JSON)) (r : Result)
    (h : Result.zero.decode (JSON.obj kvs) = Except.ok r) : Result.zeroWhereAbsent kvs r := by
  simp only [Result.decode, decodeStruct] at h
  refine ⟨?_, ?_, ?_, ?_, ?_, ?_, ?_⟩ <;> intro ha
  · exact decodeMembers_frame _ _ (fun s => s.ID) 0
      (fun j s s1 v hj hs => (Result_set_frame j s s1 v hs).1 hj) kvs _ r h ha
  · exact decodeMembers_frame _ _ (fun s => s.From) 1
      (fun j s s1 v hj hs => (Result_set_frame j s s1 v hs).2.1 hj) kvs _ r h ha
  · exact decodeMembers_frame _ _ (fun s => s.FromChannel) 2
      (fun j s s1 v hj hs => (Result_set_frame j s s1 v hs).2.2.1 hj) kvs _ r h ha
  · exact decodeMembers_frame _ _ (fun s => s.To) 3
      (fun j s s1 v hj hs => (Result_set_frame j s s1 v hs).2.2.2.1 hj) kvs _ r h ha
  · exact decodeMembers_frame _ _ (fun s => s.ToChannel) 4
      (fun j s s1 v hj hs => (Result_set_frame j s s1 v hs).2.2.2.2.1 hj) kvs _ r h ha
  · exact decodeMembers_frame _ _ (fun s => s.EventType) 5
      (fun j s s1 v hj hs => (Result_set_frame j s s1 v hs).2.2.2.2.2.1 hj) kvs _ r h ha
  · exact decodeMembers_frame _ _ (fun s => s.Content) 6
      (fun j s s1 v hj hs => (Result_set_frame j s s1 v hs).2.2.2.2.2.2 hj) kvs _ r h ha

theorem ReceivedMessage_decode_zeroWhereAbsent (kvs : List (String × JSON))
    (m : ReceivedMessage) (h : ReceivedMessage.zero.decode (JSON.obj kvs) = Except.ok m) :
    ReceivedMessage.zeroWhereAbsent kvs m := by
  simp only [ReceivedMessage.decode, decodeStruct] at h
  intro ha
  exact decodeMembers_frame _ _ (fun s => s.Results) 0
    (fun j s s1 v hj hs => ReceivedMessage_set_frame j s s1 v hs hj) kvs _ m h ha

/-! ## Members that no field matches -/

theorem decodeMembers_prune {S : Type} (names : List String)
    (set : Nat → S → JSON → Except JSONError S) (sub : Nat → JSON → JSON)
    (hsub : ∀ (i : Nat) (s : S) (v : JSON), set i s (sub i v) = set i s v) :
    ∀ (kvs : List (String × JSON)) (s : S),
      decodeMembers names set s (pruneMembers names sub kvs) = decodeMembers names set s kvs := by
  intro kvs
  induction kvs with
  | nil => intro s; rfl
  | cons kv kvs ih =>
    obtain ⟨k, v⟩ := kv
    intro s
    cases hf : findField names k with
    | none =>
      have hp : pruneMembers names sub ((k, v) :: kvs) = pruneMembers names sub kvs := by
        simp only [pruneMembers, List.filterMap_cons, hf]
      rw [hp, ih s]
      simp only [decodeMembers, hf]
    | some i =>
      have hp : pruneMembers names sub ((k, v) :: kvs) =
          (k, sub i v) :: pruneMembers names sub kvs := by
        simp only [pruneMembers, List.filterMap_cons, hf]
      rw [hp]
      simp only [decodeMembers, hf, hsub]
      cases set i s v with
      | error e => rfl
      | ok s1 => exact ih s1

theorem decodeStruct_prune {S : Type} (names : List String)
    (set : Nat → S → JSON → Except JSONError S) (sub : Nat → JSON → JSON)
    (hsub : ∀ (i : Nat) (s : S) (v : JSON), set i s (sub i v) = set i s v)
    (s : S) (j : JSON) :
    decodeStruct names set s (pruneObject names sub j) = decodeStruct names set s j := by
  cases j with
  | obj kvs => exact decodeMembers_prune names set sub hsub kvs s
  | _ => rfl

theorem decodeElems_map {A : Type} (dec : A → JSON → Except JSONError A) (zero : A)
    (f : JSON → JSON) (hf : ∀ (a : A) (x : JSON), dec a (f x) = dec a x) :
    ∀ (xs : List JSON) (old : List A),
      decodeElems dec zero old (xs.map f) = decodeElems dec zero old xs := by
  intro xs
  induction xs with
  | nil => intro old; rfl
  | cons x xs ih =>
    intro old
    simp only [List.map_cons, decodeElems, hf, ih]

theorem ContentMetadata_decode_prune (m : ContentMetadata) (j : JSON) :
    m.decode (ContentMetadata.prune j) = m.decode j :=
  decodeStruct_prune _ _ _ (fun _ _ _ => rfl) m j

theorem Location_decode_prune (l : Location) (j : JSON) :
    l.decode (Location.prune j) = l.decode j :=
  decodeStruct_prune _ _ _ (fun _ _ _ => rfl) l j

theorem Content_decode_prune (c : Content) (j : JSON) :
    c.decode (Content.prune j) = c.decode j := by
  refine decodeStruct_prune _ _ _ ?_ c j
  intro i s v
  by_cases h6 : i = 6
  · subst h6
    simp only [if_true, Content.set, ContentMetadata_decode_prune]
  · by_cases h8 : i = 8
    · subst h8
      simp only [h6, if_true, if_false, Content.set, Location_decode_prune]
    · simp only [h6, h8, if_false]

theorem Result_decode_prune (r : Result) (j : JSON) :
    r.decode (Result.prune j) = r.decode j := by
  refine decodeStruct_prune _ _ _ ?_ r j
  intro i s v
  by_cases h6 : i = 6
  · subst h6
    simp only [if_true, Result.set, Content_decode_prune]
  · simp only [h6, if_false]

theorem ReceivedMessage_decode_prune (m : ReceivedMessage) (doc : JSON) :
    m.decode (ReceivedMessage.prune doc) = m.decode doc := by
  refine decodeStruct_prune _ _ _ ?_ m doc
  intro i s v
  by_cases h0 : i = 0
  · subst h0
    simp only [if_true, ReceivedMessage.set]
    cases v with
    | arr xs =>
      simp only [pruneEvents, decodeSlice,
        decodeElems_map Result.decode Result.zero Result.prune Result_decode_prune]
    | _ => rfl
  · simp only [h0, if_false]

theorem decodeElems_nil_forall₂ {A : Type} (dec : A → JSON → Except JSONError A) (zero : A) :
    ∀ (xs : List JSON) (rs : List A), decodeElems dec zero [] xs = Except.ok rs →
      List.Forall₂ (fun x r => dec zero x = Except.ok r) xs rs := by
  intro xs
  induction xs with
  | nil =>
    intro rs h
    simp only [decodeElems, Except.ok.injEq] at h
    subst h
    exact List.Forall₂.nil
  | cons x xs ih =>
    intro rs h
    simp only [decodeElems, List.headD, List.tail] at h
    cases hx : dec zero x with
    | error e => simp [hx] at h
    | ok r =>
      simp only [hx] at h
      cases hrest : decodeElems dec zero [] xs with
      | error e => simp [hrest] at h
      | ok rs1 =>
        simp only [hrest, Except.ok.injEq] at h
        subst h
        exact List.Forall₂.cons hx (ih rs1 hrest)

/-! ## What `url.Parse` accepts and rejects -/

theorem cutByte_of_not_mem (sep : Nat) (l : List Nat) (h : sep ∉ l) :
    cutByte sep l = (l, []) := by
  induction l with
  | nil => rfl
  | cons c cs ih =>
    simp only [List.mem_cons, not_or] at h
    have hc : ¬ c = sep := fun hcs => h.1 hcs.symm
    simp only [cutByte, hc, if_false, ih h.2]

theorem getSchemeAux_of_no_colon (rawURL : List Nat) (cs : List Nat) (h : 0x3a ∉ cs) :
    ∀ i : Nat, getSchemeAux rawURL i cs = Except.ok ([], rawURL) := by
  induction cs with
  | nil => intro i; rfl
  | cons c cs ih =>
    intro i
    simp only [List.mem_cons, not_or] at h
    have hc : ¬ c = 0x3a := fun hcs => h.1 hcs.symm
    unfold getSchemeAux
    split
    · exact ih h.2 _
    · split
      · split
        · rfl
        · exact ih h.2 _
      · simp only [hc, if_false]

theorem checkEscapes_of_no_percent (l : List Nat) (h : 0x25 ∉ l) :
    ∀ fuel : Nat, checkEscapes Encoding.encodePath fuel l = Except.ok () := by
  induction l with
  | nil =>
    intro fuel
    cases fuel <;> rfl
  | cons c cs ih =>
    intro fuel
    simp only [List.mem_cons, not_or] at h
    have hc : ¬ c = 0x25 := fun hcs => h.1 hcs.symm
    cases fuel with
    | zero => rfl
    | succ f =>
      have hm : ¬ (Encoding.encodePath = Encoding.encodeHost ∨
          Encoding.encodePath = Encoding.encodeZone) := by decide
      simp only [checkEscapes, hc, if_false, hm, false_and]
      exact ih h.2 f

theorem unescapeBytes_of_no_percent (l : List Nat) (h : 0x25 ∉ l) :
    ∀ fuel : Nat, l.length ≤ fuel → unescapeBytes Encoding.encodePath fuel l = l := by
  induction l with
  | nil =>
    intro fuel _
    cases fuel <;> rfl
  | cons c cs ih =>
    intro fuel hf
    simp only [List.mem_cons, not_or] at h
    have hc : ¬ c = 0x25 := fun hcs => h.1 hcs.symm
    cases fuel with
    | zero => simp at hf
    | succ f =>
      have hm : ¬ (Encoding.encodePath = Encoding.encodeQueryComponent) := by decide
      simp only [List.length_cons] at hf
      simp only [unescapeBytes, hc, if_false, hm, and_false, ih h.2 f (by omega)]

theorem unescape_of_no_percent (l : List Nat) (h : 0x25 ∉ l) :
    unescape l Encoding.encodePath = Except.ok l := by
  simp only [unescape, checkEscapes_of_no_percent l h,
    unescapeBytes_of_no_percent l h l.length (Nat.le_refl _)]

theorem getLast?_ne_of_not_mem (x : Nat) (l : List Nat) (h : x ∉ l) :
    ¬ l.getLast? = some x := by
  intro hl
  exact h (List.mem_of_getLast?_eq_some hl)

theorem mem_of_mem_cutByte_fst (sep x : Nat) (l : List Nat) (h : x ∈ (cutByte sep l).1) :
    x ∈ l := by
  induction l with
  | nil => simp [cutByte] at h
  | cons c cs ih =>
    unfold cutByte at h
    split at h
    · simp at h
    · simp only [List.mem_cons] at h ⊢
      rcases h with h | h
      · exact Or.inl h
      · exact Or.inr (ih h)

/-- The function `parse` accepts every text of bytes without control bytes and
without `%`, `:` and `?` that does not start with a slash: the text is the path. -/
theorem parseNoFragment_of_plain (l : List Nat)
    (hctl : stringContainsCTLByte l = false) (hpct : 0x25 ∉ l) (hcolon : 0x3a ∉ l)
    (hq : 0x3f ∉ l) (hslash : ¬ l.head? = some 0x2f) :
    ∃ u : URL, parseNoFragment l = Except.ok u ∧ u.Scheme = [] ∧ u.Host = [] ∧
      u.User = none ∧ u.Path = l := by
  by_cases hstar : l = [0x2a]
  · subst hstar
    exact ⟨_, rfl, rfl, rfl, rfl, rfl⟩
  · have hscheme : getScheme l = Except.ok ([], l) := getSchemeAux_of_no_colon l l hcolon 0
    have hlast : (l.getLast? == some 0x3f) = false := by
      have hne := getLast?_ne_of_not_mem 0x3f l hq
      simpa using hne
    have hcut : cutByte 0x3f l = (l, []) := cutByte_of_not_mem _ l hq
    have hne : 0x3a ∉ (cutByte 0x2f l).1 := fun hm =>
      hcolon (mem_of_mem_cutByte_fst _ _ l hm)
    have hpre : ¬ ([0x2f, 0x2f].isPrefixOf l = true) := by
      intro hp
      cases l with
      | nil => simp [List.isPrefixOf] at hp
      | cons c cs =>
        simp only [List.isPrefixOf, Bool.and_eq_true, beq_iff_eq] at hp
        apply hslash
        simp [hp.1]
    refine ⟨{ URL.zero with Path := l,
                            RawPath := if l = escape l Encoding.encodePath then [] else l },
      ?_, rfl, rfl, rfl, rfl⟩
    simp [parseNoFragment, hctl, hstar, hscheme, hlast, hcut, hne, hpre, hslash,
      URL.setPath, unescape_of_no_percent l hpct, toLower, URL.zero]

/-- The function `url.Parse` rejects every text with a control byte before its
first `#`. -/
theorem urlParse_of_control (s : String)
    (h : stringContainsCTLByte (cutByte 0x23 (toBytes s)).1 = true) :
    urlParse s = Except.error URLError.invalidControlCharacter := by
  simp only [urlParse, parseBytes, parseNoFragment, h, if_true]

/-- The function `url.Parse` accepts every plain text, as a URL that has the
text as its path and neither scheme nor host. -/
theorem urlParse_of_isPlainText (s : String) (h : isPlainText s = true) :
    ∃ u : URL, urlParse s = Except.ok u ∧ u.Scheme = [] ∧ u.Host = [] ∧ u.User = none ∧
      u.Path = toBytes s := by
  simp only [isPlainText, Bool.and_eq_true, Bool.not_eq_true', List.all_eq_true,
    Bool.or_eq_false_iff, beq_eq_false_iff_ne, ne_eq, bne_iff_ne] at h
  obtain ⟨⟨hctl, hall⟩, hslash⟩ := h
  have hpct : 0x25 ∉ toBytes s := fun hm => (hall _ hm).1.1.1 rfl
  have hcolon : 0x3a ∉ toBytes s := fun hm => (hall _ hm).1.1.2 rfl
  have hhash : 0x23 ∉ toBytes s := fun hm => (hall _ hm).1.2 rfl
  have hq : 0x3f ∉ toBytes s := fun hm => (hall _ hm).2 rfl
  obtain ⟨u, hu, h1, h2, h3, h4⟩ :=
    parseNoFragment_of_plain (toBytes s) hctl hpct hcolon hq hslash
  refine ⟨u, ?_, h1, h2, h3, h4⟩
  simp only [urlParse, parseBytes, cutByte_of_not_mem _ _ hhash, hu, if_true]

/-! ## C1: the size guard -/

/-- C1. When the serialized envelope is longer than 8192 bytes, `SendMessage`
returns an error (the one of the size guard) and makes no call of `client.Do`. -/
theorem SendMessage_size_guard (net : Network) (api : API) (to_ : Option (List String))
    (text : String) (b : String)
    (hm : jsonMarshal (envelope to_ text) = Except.ok b)
    (hb : 8192 < b.utf8ByteSize) :
    (SendMessage net api to_ text).err =
        some (Error.new "The size of API request is too long (over 8192 bytes).") ∧
      (SendMessage net api to_ text).sent.length = 0 := by
  rw [jsonMarshal_eq _ _ hm] at hb
  rw [SendMessage_refuses net api to_ text hb]
  exact ⟨rfl, rfl⟩

/-- C1 at a text of 8200 letters. -/
theorem SendMessage_size_guard_witness :
    8192 < (render (envelope (some ["U1"]) (String.mk (List.replicate 8200 'a'))).toJSON).utf8ByteSize ∧
    (SendMessage (answeringNetwork 200 "\x7b\x7d") (New "id" "secret" "mid") (some ["U1"])
        (String.mk (List.replicate 8200 'a'))).err =
      some (Error.new "The size of API request is too long (over 8192 bytes).") ∧
    (SendMessage (answeringNetwork 200 "\x7b\x7d") (New "id" "secret" "mid") (some ["U1"])
        (String.mk (List.replicate 8200 'a'))).sent.length = 0 :=
  have h : 8192 < (render (envelope (some ["U1"])
      (String.mk (List.replicate 8200 'a'))).toJSON).utf8ByteSize :=
    Nat.lt_of_lt_of_le (by rw [utf8ByteSize_replicate]; decide)
      (text_size_le_envelope_size (some ["U1"]) (String.mk (List.replicate 8200 'a')))
  ⟨h, SendMessage_size_guard _ _ _ _ _ rfl h⟩

/-! ## C2: one POST -/

/-- C2. When the serialized envelope is at most 8192 bytes long, `SendMessage`
makes exactly one call of `client.Do`: a POST to the endpoint
`https://trialbot-api.line.me/v1/events` that carries the four headers (with the
content type, the channel identifier, the channel secret and the bot identity)
and the serialized envelope as its body. -/
theorem SendMessage_one_post (net : Network) (api : API) (to_ : Option (List String))
    (text : String) (b : String)
    (hm : jsonMarshal (envelope to_ text) = Except.ok b)
    (hb : b.utf8ByteSize ≤ 8192) :
    ∃ req : Request,
      (SendMessage net api to_ text).sent = [(httpClient api, req)] ∧
      req.Method = "POST" ∧
      req.URL.Scheme = toBytes "https" ∧
      req.URL.Host = toBytes "trialbot-api.line.me" ∧
      req.URL.Path = toBytes "/v1/events" ∧
      req.Header.length = 4 ∧
      req.Header.Get "Content-Type" = "application/json; charset=UTF-8" ∧
      req.Header.Get "X-Line-ChannelID" = api.channelID ∧
      req.Header.Get "X-Line-ChannelSecret" = api.channelSecret ∧
      req.Header.Get "X-Line-Trusted-User-With-ACL" = api.mID ∧
      req.Body = b := by
  have hb1 := hb
  rw [jsonMarshal_eq _ _ hm] at hb1
  refine ⟨addHeaders api (endpointRequest b), ?_, rfl, rfl, rfl, rfl, ?_, ?_, ?_, ?_, ?_, rfl⟩
  · rw [SendMessage_sent net api to_ text hb1, ← jsonMarshal_eq _ _ hm]
  all_goals
    rw [addHeaders_header api (endpointRequest b) rfl]
    rfl

set_option maxRecDepth 100000 in
/-- C2 at the recipient `U1` and the text `hi`. -/
theorem SendMessage_one_post_witness :
    ∃ req : Request,
      (SendMessage refusingNetwork (New "id" "secret" "mid") (some ["U1"]) "hi").sent =
        [(httpClient (New "id" "secret" "mid"), req)] ∧
      req.Method = "POST" ∧
      req.URL.Scheme = toBytes "https" ∧
      req.URL.Host = toBytes "trialbot-api.line.me" ∧
      req.URL.Path = toBytes "/v1/events" ∧
      req.Header.length = 4 ∧
      req.Header.Get "Content-Type" = "application/json; charset=UTF-8" ∧
      req.Header.Get "X-Line-ChannelID" = "id" ∧
      req.Header.Get "X-Line-ChannelSecret" = "secret" ∧
      req.Header.Get "X-Line-Trusted-User-With-ACL" = "mid" ∧
      req.Body = render (envelope (some ["U1"]) "hi").toJSON :=
  SendMessage_one_post refusingNetwork (New "id" "secret" "mid") (some ["U1"]) "hi"
    (render (envelope (some ["U1"]) "hi").toJSON) rfl (by decide)

/-! ## C3: the serialized envelope -/

set_option maxRecDepth 100000 in
/-- C3, as stated, fails for the recipient `U1` and the text `hi`: the body
`SendMessage` serializes is not the object of the outbound schema; read as JSON,
its content object has nine keys where the schema has three. -/
theorem SendMessage_body_is_not_outboundSchema :
    jsonMarshal (envelope (some ["U1"]) "hi") = Except.ok
      "\x7b\"to\":[\"U1\"],\"toChannel\":1383378250,\"eventType\":\"138311608800106203\",\"content\":\x7b\"id\":\"\",\"contentType\":1,\"from\":\"\",\"createdTime\":0,\"to\":null,\"toType\":1,\"contentMetadata\":\x7b\"STKPKGID\":\"\",\"STKID\":\"\",\"STKVER\":\"\",\"STKTXT\":\"\",\"mid\":\"\",\"displayName\":\"\"\x7d,\"text\":\"hi\",\"location\":\x7b\"title\":\"\",\"address\":\"\",\"latitude\":0,\"Longitude\":0\x7d\x7d\x7d" ∧
    render (outboundSchema ["U1"] "hi") =
      "\x7b\"to\":[\"U1\"],\"toChannel\":1383378250,\"eventType\":\"138311608800106203\",\"content\":\x7b\"contentType\":1,\"toType\":1,\"text\":\"hi\"\x7d\x7d" ∧
    jsonMarshal (envelope (some ["U1"]) "hi") ≠
      Except.ok (render (outboundSchema ["U1"] "hi")) ∧
    (parseJSON (render (envelope (some ["U1"]) "hi").toJSON)).map
        (fun j => memberKeys (memberOf j "content")) =
      some ["id", "contentType", "from", "createdTime", "to", "toType", "contentMetadata",
        "text", "location"] ∧
    memberKeys (memberOf (outboundSchema ["U1"] "hi") "content") =
      ["contentType", "toType", "text"] := by
  refine ⟨rfl, rfl, ?_, rfl, rfl⟩
  intro h
  have h1 := jsonMarshal_eq _ _ h
  revert h1
  decide

/-- C3, amended. The body `SendMessage` serializes is the object with the keys
`to` (the recipients in order, `null` for a nil list), `toChannel`, `eventType`
and `content`, where the content object has the nine keys of `Content`:
`contentType` 1, `toType` 1, `text` the text, and the other six at their zero
values.  The text is unchanged: the string literal written for it is read back
by the JSON scanner as the text. -/
theorem SendMessage_body (to_ : Option (List String)) (text : String) :
    jsonMarshal (envelope to_ text) = Except.ok (render (envelopeJSON to_ text)) ∧
    (envelope to_ text).toJSON = envelopeJSON to_ text ∧
    (∀ l : List String, stringsToJSON (some l) = JSON.arr (l.map JSON.str)) ∧
    stringsToJSON none = JSON.null ∧
    render (JSON.str text) = encodeString text ∧
    parseJSON (encodeString text) = some (JSON.str text) :=
  ⟨rfl, rfl, fun _ => rfl, rfl, by simp only [render], parseJSON_encodeString text⟩

/-! ## C4: decoding a document of the inbound schema -/

/-- C4. For every body that is JSON and matches the inbound webhook schema
(an object with distinct keys out of those the schema lists, spelled as the
schema spells them, each with a value of the listed type, an `int` being an
integer literal within the range of the type), `DecodeMessage` returns no error
and the batch whose fields are the values the document gives, the longitude the
value under the key `longitude`; the events are in the order of the array. -/
theorem DecodeMessage_reads_schema (api : API) (body : String) (doc : JSON)
    (hparse : parseJSON body = some doc)
    (hdoc : matchesInboundSchema doc = true) :
    DecodeMessage api (Except.ok body) = (api, Except.ok (schemaBatch doc)) := by
  have hdec := ReceivedMessage_decode_eq doc hdoc
  unfold DecodeMessage unmarshalReceivedMessage
  simp only [hparse, hdec]

set_option maxRecDepth 100000 in
/-- C4 at `sampleBody`: every field is read, the longitude 139 included. -/
theorem DecodeMessage_reads_schema_witness :
    parseJSON sampleBody = some sampleDoc ∧
    matchesInboundSchema sampleDoc = true ∧
    DecodeMessage (New "id" "secret" "mid") (Except.ok sampleBody) =
      (New "id" "secret" "mid", Except.ok { Results := some [
        { ID := "e1", From := "u2", FromChannel := 1341301815, To := some ["u0"],
          ToChannel := 1441301333, EventType := "138311609000106303",
          Content :=
            { ID := "c1", ContentType := 7, From := "uf", CreatedTime := 1332394961610,
              To := some ["u0", "u1"], ToType := 1,
              ConentMetadata :=
                { STKPKGID := "1", STKID := "2", STKVER := "100", STKTXT := "[smile]",
                  Mid := "u9", DisplayName := "Taro" },
              Text := "hello",
              Location :=
                { Title := "Tokyo", Address := "Shibuya", Latitude := 35,
                  Longitude := 139 } } }] }) :=
  ⟨rfl, by decide,
    (DecodeMessage_reads_schema (New "id" "secret" "mid") sampleBody sampleDoc rfl
      (by decide)).trans rfl⟩

/-! ## C5: the empty stream and the empty batch -/

/-- C5. `DecodeMessage` on the empty byte stream returns an error and no
batch; on the body `{"result":[]}` it returns no error and a batch whose event
sequence has length 0. -/
theorem DecodeMessage_empty_stream_and_empty_result (api : API) :
    (DecodeMessage api (Except.ok "")).2 = Except.error (Error.json JSONError.invalidJSON) ∧
    (DecodeMessage api (Except.ok "\x7b\"result\":[]\x7d")).2 =
      Except.ok { Results := some [] } ∧
    (({ Results := some [] } : ReceivedMessage).Results.getD []).length = 0 :=
  ⟨rfl, rfl, rfl⟩

/-! ## C6: keys outside the schema and absent fields -/

set_option maxRecDepth 100000 in
/-- C6, as stated, fails: the event decoded from the body of the claim has the
`ID` "1", so not every field other than `From`, `Content.ContentType` and
`Content.Text` is zero; and the key `FROM`, which the schema does not list, is
not ignored but decoded into `From`. -/
theorem DecodeMessage_sample_event_has_ID :
    (DecodeMessage (New "id" "secret" "mid") (Except.ok
      "\x7b\"result\":[\x7b\"id\":\"1\",\"from\":\"U1\",\"content\":\x7b\"contentType\":1,\"text\":\"hi\"\x7d\x7d]\x7d")).2 ≠
      Except.ok { Results := some [
        { Result.zero with
            From := "U1",
            Content := { Content.zero with ContentType := 1, Text := "hi" } }] } ∧
    "FROM" ∉ Result.names ∧
    (DecodeMessage (New "id" "secret" "mid") (Except.ok
      "\x7b\"result\":[\x7b\"FROM\":\"U1\"\x7d]\x7d")).2 =
      Except.ok { Results := some [{ Result.zero with From := "U1" }] } := by
  refine ⟨?_, by decide, rfl⟩
  intro h
  have h1 : (DecodeMessage (New "id" "secret" "mid") (Except.ok
      "\x7b\"result\":[\x7b\"id\":\"1\",\"from\":\"U1\",\"content\":\x7b\"contentType\":1,\"text\":\"hi\"\x7d\x7d]\x7d")).2 =
      Except.ok { Results := some [
        { Result.zero with
            ID := "1", From := "U1",
            Content := { Content.zero with ContentType := 1, Text := "hi" } }] } := rfl
  rw [h1] at h
  exact absurd (Except.ok.inj h) (by decide)

/-- C6, amended. `DecodeMessage` ignores the keys that match no field name of
the struct they would be decoded into, neither exactly nor under case folding:
a document decodes as the document without those members.  A field that no key
of its object matches has its zero value, at each of the five structs; each
event of a batch is decoded from a zero `Result`.  The body of the claim decodes
without error to one event with `ID` "1", `From` "U1", `Content.ContentType` 1,
`Content.Text` "hi" and every other field zero. -/
theorem DecodeMessage_ignores_unmatched_keys :
    (∀ (api : API) (body body1 : String) (doc : JSON),
      parseJSON body = some doc → parseJSON body1 = some (ReceivedMessage.prune doc) →
      DecodeMessage api (Except.ok body) = DecodeMessage api (Except.ok body1)) ∧
    (∀ (kvs : List (String × JSON)) (m : ReceivedMessage),
      ReceivedMessage.zero.decode (JSON.obj kvs) = Except.ok m →
      ReceivedMessage.zeroWhereAbsent kvs m) ∧
    (∀ (api : API) (body : String) (xs : List JSON) (rs : List Result),
      parseJSON body = some (JSON.obj [("result", JSON.arr xs)]) →
      (DecodeMessage api (Except.ok body)).2 = Except.ok { Results := some rs } →
      List.Forall₂ (fun x r => Result.zero.decode x = Except.ok r) xs rs) ∧
    (∀ (kvs : List (String × JSON)) (r : Result),
      Result.zero.decode (JSON.obj kvs) = Except.ok r → Result.zeroWhereAbsent kvs r) ∧
    (∀ (kvs : List (String × JSON)) (c : Content),
      Content.zero.decode (JSON.obj kvs) = Except.ok c → Content.zeroWhereAbsent kvs c) ∧
    (∀ (kvs : List (String × JSON)) (m : ContentMetadata),
      ContentMetadata.zero.decode (JSON.obj kvs) = Except.ok m →
      ContentMetadata.zeroWhereAbsent kvs m) ∧
    (∀ (kvs : List (String × JSON)) (l : Location),
      Location.zero.decode (JSON.obj kvs) = Except.ok l → Location.zeroWhereAbsent kvs l) ∧
    (∀ api : API, DecodeMessage api (Except.ok
      "\x7b\"result\":[\x7b\"id\":\"1\",\"from\":\"U1\",\"content\":\x7b\"contentType\":1,\"text\":\"hi\"\x7d\x7d]\x7d") =
      (api, Except.ok { Results := some [
        { Result.zero with
            ID := "1", From := "U1",
            Content := { Content.zero with ContentType := 1, Text := "hi" } }] })) := by
  refine ⟨?_, ReceivedMessage_decode_zeroWhereAbsent, ?_, Result_decode_zeroWhereAbsent,
    Content_decode_zeroWhereAbsent, ContentMetadata_decode_zeroWhereAbsent,
    Location_decode_zeroWhereAbsent, fun _ => rfl⟩
  · intro api body body1 doc h h1
    simp only [DecodeMessage, unmarshalReceivedMessage, h, h1, ReceivedMessage_decode_prune]
  · intro api body xs rs h hd
    simp only [DecodeMessage, unmarshalReceivedMessage, h] at hd
    have hdec : ReceivedMessage.zero.decode (JSON.obj [("result", JSON.arr xs)]) =
        (decodeElems Result.decode Result.zero [] xs).map
          (fun x => ({ Results := some x } : ReceivedMessage)) := by
      have hf : findField ReceivedMessage.names "result" = some 0 := by decide
      simp only [ReceivedMessage.decode, decodeStruct, decodeMembers, hf, ReceivedMessage.set,
        decodeSlice, ReceivedMessage.zero, Option.getD]
      cases decodeElems Result.decode Result.zero [] xs <;> rfl
    rw [hdec] at hd
    cases hel : decodeElems Result.decode Result.zero [] xs with
    | error e => simp [hel, Except.map] at hd
    | ok rs1 =>
      simp only [hel, Except.map, Except.ok.injEq, Prod.mk.injEq] at hd
      have : rs1 = rs := by
        simpa using hd
      subst this
      exact decodeElems_nil_forall₂ _ _ xs rs1 hel

/-! ## C7: the proxy setting -/

set_option maxRecDepth 100000 in
/-- C7, as stated, fails: the texts `not a url`, a single space and the empty
text are no well-formed URLs, and `SetProxy` returns nil for each of them. -/
theorem SetProxy_accepts_text_that_is_no_URL :
    wellFormedURL "not a url" = false ∧
    (SetProxy (New "id" "secret" "mid") "not a url").2 = none ∧
    wellFormedURL " " = false ∧
    (SetProxy (New "id" "secret" "mid") " ").2 = none ∧
    wellFormedURL "" = false ∧
    (SetProxy (New "id" "secret" "mid") "").2 = none := by
  refine ⟨by decide, rfl, by decide, rfl, by decide, rfl⟩

set_option maxRecDepth 100000 in
/-- C7, amended. `SetProxy` returns an error exactly when `url.Parse` rejects the
text, and then stores no proxy: so for every text with a control character
before its first `#`, such as `not a url` followed by a NUL.  It returns nil for
every text without control characters and without `%`, `:`, `#`, `?` that does
not start with a slash, well-formed URL or not, and stores it as a URL with that
path.  Whenever it returns nil it has stored the URL `url.Parse` gave, and the
next `SendMessage` that passes the size guard makes its call through a transport
whose proxy is that URL. -/
theorem SetProxy_stores_parsed_URL :
    (∀ (api : API) (s : String),
      stringContainsCTLByte (cutByte 0x23 (toBytes s)).1 = true →
      SetProxy api s =
        ({ api with proxyURL := none }, some (Error.url URLError.invalidControlCharacter))) ∧
    (∀ (api : API) (s : String), isPlainText s = true →
      ∃ u : URL, SetProxy api s = ({ api with proxyURL := some u }, none) ∧
        u.Scheme = [] ∧ u.Host = [] ∧ u.User = none ∧ u.Path = toBytes s) ∧
    (∀ (api : API) (s : String) (e : Error), (SetProxy api s).2 = some e →
      (SetProxy api s).1.proxyURL = none ∧
      ∃ ue : URLError, e = Error.url ue ∧ urlParse s = Except.error ue) ∧
    (∀ (api : API) (s : String), (SetProxy api s).2 = none →
      ∃ u : URL, urlParse s = Except.ok u ∧ (SetProxy api s).1.proxyURL = some u ∧
        ∀ (net : Network) (to_ : Option (List String)) (text : String) (b : String),
          jsonMarshal (envelope to_ text) = Except.ok b → b.utf8ByteSize ≤ 8192 →
          ∃ req : Request, (SendMessage net (SetProxy api s).1 to_ text).sent =
            [({ Timeout := 30000000000, Transport := some { Proxy := u } }, req)]) ∧
    (∀ api : API, (SetProxy api "not a url\x00").2 =
      some (Error.url URLError.invalidControlCharacter)) ∧
    (wellFormedURL "http://proxy.example.com:8080" = true ∧
      ∀ api : API, (SetProxy api "http://proxy.example.com:8080").2 = none ∧
        (SetProxy api "http://proxy.example.com:8080").1.proxyURL =
          some { URL.zero with Scheme := toBytes "http",
                               Host := toBytes "proxy.example.com:8080" }) := by
  refine ⟨?_, ?_, ?_, ?_, ?_, ?_⟩
  · intro api s h
    simp only [SetProxy, urlParse_of_control s h]
  · intro api s h
    obtain ⟨u, hu, h1, h2, h3, h4⟩ := urlParse_of_isPlainText s h
    exact ⟨u, by simp only [SetProxy, hu], h1, h2, h3, h4⟩
  · intro api s e h
    unfold SetProxy at h ⊢
    cases hu : urlParse s with
    | error ue =>
      simp only [hu, Option.some.injEq] at h
      exact ⟨rfl, ue, h.symm, rfl⟩
    | ok u => simp [hu] at h
  · intro api s h
    cases hu : urlParse s with
    | error ue => simp [SetProxy, hu] at h
    | ok u =>
      refine ⟨u, rfl, by simp only [SetProxy, hu], ?_⟩
      intro net to_ text b hm hb
      rw [jsonMarshal_eq _ _ hm] at hb
      refine ⟨addHeaders (SetProxy api s).1
        (endpointRequest (render (envelope to_ text).toJSON)), ?_⟩
      rw [SendMessage_sent net (SetProxy api s).1 to_ text hb]
      simp only [SetProxy, hu, httpClient]
  · intro api
    rfl
  · refine ⟨by decide, ?_⟩
    intro api
    exact ⟨rfl, rfl⟩

/-! ## C8: success is decided by the exchange alone -/

/-- C8. When the envelope passes the size guard, the call of `client.Do`
returns a response (whatever its status code), its body is read and
`json.Unmarshal` parses it into the mapping, `SendMessage` returns nil,
whatever the mapping holds. -/
theorem SendMessage_success_of_parseable_response (net : Network) (api : API)
    (to_ : Option (List String)) (text : String) (b : String) (req0 : Request)
    (res : HTTPResponse) (body : String) (m : List (String × JSON))
    (hm : jsonMarshal (envelope to_ text) = Except.ok b)
    (hb : b.utf8ByteSize ≤ 8192)
    (hreq : NewRequest "POST" (baseEndPoint ++ "/v1/events") b = Except.ok req0)
    (hnet : net (httpClient api) (addHeaders api req0) = Except.ok res)
    (hbody : res.Body = Except.ok body)
    (hparse : unmarshalMap body = Except.ok m) :
    (SendMessage net api to_ text).err = none := by
  have hb1 := hb
  rw [jsonMarshal_eq _ _ hm] at hb1
  rw [NewRequest_eq, Except.ok.injEq] at hreq
  subst hreq
  rw [jsonMarshal_eq _ _ hm] at hnet
  rw [SendMessage_sends net api to_ text hb1]
  simp only [hnet, hbody, hparse]

set_option maxRecDepth 100000 in
/-- C8 at the response `{"messageId":"m1"}` with status 200. -/
theorem SendMessage_success_of_parseable_response_witness :
    (SendMessage (answeringNetwork 200 "\x7b\"messageId\":\"m1\"\x7d") (New "id" "secret" "mid")
      (some ["U1"]) "hi").err = none :=
  SendMessage_success_of_parseable_response
    (answeringNetwork 200 "\x7b\"messageId\":\"m1\"\x7d") (New "id" "secret" "mid")
    (some ["U1"]) "hi" (render (envelope (some ["U1"]) "hi").toJSON)
    (endpointRequest (render (envelope (some ["U1"]) "hi").toJSON))
    { StatusCode := 200, Body := Except.ok "\x7b\"messageId\":\"m1\"\x7d" }
    "\x7b\"messageId\":\"m1\"\x7d" [("messageId", JSON.str "m1")]
    rfl (by decide) (NewRequest_eq _) rfl rfl rfl

/-! ## C9: one attempt, no retry -/

/-- C9. When the envelope passes the size guard and the call of `client.Do`
fails, `SendMessage` returns that very error after that single call.  Every call
of `SendMessage` either returns an error without calling `client.Do`, or calls
it exactly once and returns nil exactly when that call gave a response whose
body could be read and parsed. -/
theorem SendMessage_single_attempt (net : Network) (api : API)
    (to_ : Option (List String)) (text : String) (b : String) (req0 : Request) (e : Error)
    (hm : jsonMarshal (envelope to_ text) = Except.ok b)
    (hb : b.utf8ByteSize ≤ 8192)
    (hreq : NewRequest "POST" (baseEndPoint ++ "/v1/events") b = Except.ok req0)
    (hnet : net (httpClient api) (addHeaders api req0) = Except.error e) :
    (SendMessage net api to_ text).err = some e ∧
    (SendMessage net api to_ text).sent = [(httpClient api, addHeaders api req0)] ∧
    (∀ (net1 : Network) (api1 : API) (to1 : Option (List String)) (text1 : String),
      ((SendMessage net1 api1 to1 text1).sent = [] ∧
        (SendMessage net1 api1 to1 text1).err ≠ none) ∨
      (∃ (c : Client) (r : Request),
        (SendMessage net1 api1 to1 text1).sent = [(c, r)] ∧
        (∀ e1 : Error, net1 c r = Except.error e1 →
          (SendMessage net1 api1 to1 text1).err = some e1) ∧
        ((SendMessage net1 api1 to1 text1).err = none ↔
          ∃ (res : HTTPResponse) (body : String) (m : List (String × JSON)),
            net1 c r = Except.ok res ∧ res.Body = Except.ok body ∧
              unmarshalMap body = Except.ok m))) := by
  have hb1 := hb
  rw [jsonMarshal_eq _ _ hm] at hb1
  rw [NewRequest_eq, Except.ok.injEq] at hreq
  subst hreq
  rw [jsonMarshal_eq _ _ hm] at hnet
  refine ⟨?_, ?_, ?_⟩
  · rw [SendMessage_sends net api to_ text hb1]
    simp only [hnet]
  · rw [SendMessage_sends net api to_ text hb1, jsonMarshal_eq _ _ hm]
    simp only [hnet]
  · intro net1 api1 to1 text1
    by_cases hsz : (render (envelope to1 text1).toJSON).utf8ByteSize ≤ 8192
    · right
      refine ⟨httpClient api1,
        addHeaders api1 (endpointRequest (render (envelope to1 text1).toJSON)), ?_⟩
      rw [SendMessage_sends net1 api1 to1 text1 hsz]
      cases hn : net1 (httpClient api1)
          (addHeaders api1 (endpointRequest (render (envelope to1 text1).toJSON))) with
      | error e1 =>
        refine ⟨rfl, ?_, ?_⟩
        · intro e2 h2
          simp only [Except.error.injEq] at h2
          simp only [h2]
        · simp
      | ok res =>
        cases hr : res.Body with
        | error cause =>
          simp only [hr]
          refine ⟨trivial, ?_, ?_⟩
          · intro e2 h2; simp at h2
          · simp only [Except.ok.injEq]
            constructor
            · intro h; simp at h
            · rintro ⟨res1, body, m, h1, h2, _⟩
              subst h1
              rw [hr] at h2
              simp at h2
        | ok body =>
          simp only [hr]
          cases hu : unmarshalMap body with
          | error e3 =>
            refine ⟨rfl, ?_, ?_⟩
            · intro e2 h2; simp at h2
            · simp only [Except.ok.injEq]
              constructor
              · intro h; simp at h
              · rintro ⟨res1, body1, m, h1, h2, h3⟩
                subst h1
                rw [hr, Except.ok.injEq] at h2
                subst h2
                rw [hu] at h3
                simp at h3
          | ok m =>
            refine ⟨rfl, ?_, ?_⟩
            · intro e2 h2; simp at h2
            · simp only [Except.ok.injEq, true_iff]
              exact ⟨res, body, m, rfl, hr, hu⟩
    · left
      rw [SendMessage_refuses net1 api1 to1 text1 (by omega)]
      exact ⟨rfl, by simp⟩

set_option maxRecDepth 100000 in
/-- C9 at a network that refuses the connection. -/
theorem SendMessage_single_attempt_witness :
    (SendMessage refusingNetwork (New "id" "secret" "mid") (some ["U1"]) "hi").err =
      some (Error.transport "connection refused") ∧
    (SendMessage refusingNetwork (New "id" "secret" "mid") (some ["U1"]) "hi").sent.length = 1 :=
  have h := SendMessage_single_attempt refusingNetwork (New "id" "secret" "mid")
    (some ["U1"]) "hi" (render (envelope (some ["U1"]) "hi").toJSON)
    (endpointRequest (render (envelope (some ["U1"]) "hi").toJSON))
    (Error.transport "connection refused") rfl (by decide) (NewRequest_eq _) rfl
  ⟨h.1, by rw [h.2.1]; rfl⟩

/-! ## C10: when the client has a proxy -/

/-- C10. In the state reached from `New` by any sequence of `SetProxy`,
`DecodeMessage` and `SendMessage` calls, the client has a proxy (and
`SendMessage` builds its client with the proxy transport) exactly when a
`SetProxy` call was made and the most recent one returned nil; the credentials
are those given to `New`.  A failing `SetProxy` removes a proxy set before, a
`SetProxy` of the empty string sets one, `DecodeMessage` and `SendMessage` leave
the client as it is. -/
theorem proxy_set_iff_last_SetProxy_succeeded (channelID channelSecret mid : String)
    (calls : List Call) :
    ((runCalls (New channelID channelSecret mid) calls).proxyURL.isSome = true ↔
      ∃ s : String, lastSetProxy calls = some s ∧
        ∀ api0 : API, (SetProxy api0 s).2 = none) ∧
    ((httpClient (runCalls (New channelID channelSecret mid) calls)).Transport.isSome =
      (runCalls (New channelID channelSecret mid) calls).proxyURL.isSome) ∧
    (runCalls (New channelID channelSecret mid) calls).channelID = channelID ∧
    (runCalls (New channelID channelSecret mid) calls).channelSecret = channelSecret ∧
    (runCalls (New channelID channelSecret mid) calls).mID = mid ∧
    (New channelID channelSecret mid).proxyURL = none ∧
    (∀ (api : API) (s : String), (SetProxy api s).2 ≠ none →
      (SetProxy api s).1.proxyURL = none) ∧
    (∀ api : API, (SetProxy api "").2 = none ∧
      (SetProxy api "").1.proxyURL = some URL.zero) ∧
    (∀ (api : API) (body : Except String String), (DecodeMessage api body).1 = api) ∧
    (∀ (net : Network) (api : API) (to_ : Option (List String)) (text : String),
      (SendMessage net api to_ text).api = api) := by
  obtain ⟨hp, h1, h2, h3⟩ := runCalls_New channelID channelSecret mid calls
  refine ⟨?_, ?_, h1, h2, h3, rfl, ?_, ?_, DecodeMessage_api, SendMessage_api⟩
  · rw [hp]
    cases hl : lastSetProxy calls with
    | none => simp
    | some s =>
      simp only [SetProxy, Option.some.injEq, exists_eq_left']
      cases urlParse s with
      | error e =>
        simp only [Except.toOption, Option.isSome_none, Bool.false_eq_true, false_iff,
          not_forall]
        exact ⟨New "" "" "", by simp⟩
      | ok u => simp [Except.toOption]
  · unfold httpClient
    cases (runCalls (New channelID channelSecret mid) calls).proxyURL <;> rfl
  · intro api s h
    unfold SetProxy at h ⊢
    cases hu : urlParse s with
    | error e => rfl
    | ok u => simp [hu] at h
  · intro api
    exact ⟨rfl, rfl⟩

end Line
